import Mathlib

/-!
# MemoryManager: a shallow embedding of `memman.c`

The allocator keeps one growable buffer `memory` and threads block headers
(`Block`, 16 bytes) through it.  The embedding works on the bytes of the
buffer:

* `Mem` is the content of `memory`, one byte per offset.  Headers are read and
  written through `rd8`/`rd16`/`rd32` and `wr8`/`wr16`/`wr32` at the field
  offsets of `Block` (`id` +0, `is_free` +2, `unused` +3, `size` +4, `prev` +8,
  `next` +12), little-endian.
* A `Block *` is the byte offset of the header in `memory`; a `void *` handed
  to the caller is the byte offset of the payload, `none` is `NULL`.
* `u32` arithmetic is arithmetic modulo `2^32`, `size_t` arithmetic modulo
  `2^64`.  `rover` is declared `int` in the source but only ever compared with
  and converted to `u32`; it is kept as the `u32` value.
* `malloc` and `realloc` of the platform are an `Env`: they may fail, and the
  bytes they hand out are arbitrary.
* Loops that the source does not bound take a `fuel` argument; a dereference
  of a `NULL` block pointer is the result `fault`.
-/

namespace MemoryManager

/-! ## Constants -/

/-- The tag `#define MM_ID 0xBEEF`. -/
def MM_ID : Nat := 0xBEEF

/-- The link `#define NULL_LINK 0xFFFFFFFF`. -/
def NULL_LINK : Nat := 0xFFFFFFFF

/-- The bound `#define U32_MAX 0xFFFFFFFF`. -/
def U32_MAX : Nat := 0xFFFFFFFF

/-- The bound `#define MEM_MAX (size_t)U32_MAX`. -/
def MEM_MAX : Nat := U32_MAX

/-- The bound `#define MEM_MIN (size_t)256`. -/
def MEM_MIN : Nat := 256

/-- The size `sizeof(Block)` of `u16 id; u8 is_free; u8 unused; u32 size; u32 prev; u32 next;` -/
def sizeofBlock : Nat := 16

/-- Wrap to `u32`. -/
def u32 (n : Nat) : Nat := n % 2 ^ 32

/-- Wrap to `size_t`. -/
def usize (n : Nat) : Nat := n % 2 ^ 64

/-- Subtraction of `u32` values, modulo `2^32`. -/
def sub32 (a b : Nat) : Nat := (a % 2 ^ 32 + 2 ^ 32 - b % 2 ^ 32) % 2 ^ 32

/-! ## Bytes of `memory` -/

/-- The bytes of the buffer `memory`, by offset. -/
abbrev Mem := Nat → Nat

/-- Read the byte at offset `a`. -/
def rd8 (m : Mem) (a : Nat) : Nat := m a % 256

/-- Write the byte at offset `a`. -/
def wr8 (m : Mem) (a v : Nat) : Mem := fun x => if x = a then v % 256 else m x

/-- Read a little-endian `u16` at offset `a`. -/
def rd16 (m : Mem) (a : Nat) : Nat := rd8 m a + 256 * rd8 m (a + 1)

/-- Write a little-endian `u16` at offset `a`. -/
def wr16 (m : Mem) (a v : Nat) : Mem := wr8 (wr8 m a v) (a + 1) (v / 256)

/-- Read a little-endian `u32` at offset `a`. -/
def rd32 (m : Mem) (a : Nat) : Nat :=
  rd8 m a + 256 * rd8 m (a + 1) + 65536 * rd8 m (a + 2) + 16777216 * rd8 m (a + 3)

/-- Write a little-endian `u32` at offset `a`. -/
def wr32 (m : Mem) (a v : Nat) : Mem :=
  wr8 (wr8 (wr8 (wr8 m a v) (a + 1) (v / 256)) (a + 2) (v / 65536)) (a + 3) (v / 16777216)

/-- The call `memset(dst, 0, n)`. -/
def memset0 (m : Mem) (dst n : Nat) : Mem :=
  fun x => if dst ≤ x ∧ x < dst + n then 0 else m x

/-- The call `memmove(dst, src, n)`: the source bytes are taken before any is written. -/
def memmove (m : Mem) (dst src n : Nat) : Mem :=
  fun x => if dst ≤ x ∧ x < dst + n then m (src + (x - dst)) else m x

/-! ## Fields of a `Block` header at byte offset `b` -/

/-- The field `block->id`. -/
def getId (m : Mem) (b : Nat) : Nat := rd16 m b

/-- The field `block->is_free`. -/
def getIsFree (m : Mem) (b : Nat) : Nat := rd8 m (b + 2)

/-- The field `block->size`. -/
def getSize (m : Mem) (b : Nat) : Nat := rd32 m (b + 4)

/-- The field `block->prev`. -/
def getPrev (m : Mem) (b : Nat) : Nat := rd32 m (b + 8)

/-- The field `block->next`. -/
def getNext (m : Mem) (b : Nat) : Nat := rd32 m (b + 12)

/-- The assignment `block->id = v`. -/
def setId (m : Mem) (b v : Nat) : Mem := wr16 m b v

/-- The assignment `block->is_free = v`. -/
def setIsFree (m : Mem) (b v : Nat) : Mem := wr8 m (b + 2) v

/-- The assignment `block->size = v`. -/
def setSize (m : Mem) (b v : Nat) : Mem := wr32 m (b + 4) v

/-- The assignment `block->prev = v`. -/
def setPrev (m : Mem) (b v : Nat) : Mem := wr32 m (b + 8) v

/-- The assignment `block->next = v`. -/
def setNext (m : Mem) (b v : Nat) : Mem := wr32 m (b + 12) v

/-! ## State -/

/-- The four `static` variables of `memman.c`.  `memory` is the content of the
buffer.  The pointer value itself is not represented: not that it is `NULL`
before `MM_Init` and after a failed `malloc` in `MM_Init`, and not that
`realloc` may move the buffer (all links are offsets). -/
structure State where
  realloc_increment : Nat
  allocated : Nat
  rover : Nat
  memory : Mem

/-- The platform allocator.  `malloc n` is `none` when `malloc(n)` returns
`NULL` and otherwise the (arbitrary) bytes of the fresh buffer; `realloc n` is
`none` when `realloc(memory, n)` returns `NULL` and otherwise the (arbitrary)
bytes found beyond the part carried over from the old buffer. -/
structure Env where
  malloc : Nat → Option Mem
  realloc : Nat → Option Mem

/-- Outcome of a call: it returns `val` in state `st`, it dereferences a `NULL`
block pointer, or the loop bound of the model is used up. -/
inductive Res (α : Type) where
  | ret (val : α) (st : State)
  | fault
  | timeout

/-- The returned value, if the call returned. -/
def Res.val? {α : Type} : Res α → Option α
  | .ret v _ => some v
  | .fault => none
  | .timeout => none

/-- The state after the call, if the call returned. -/
def Res.st? {α : Type} : Res α → Option State
  | .ret _ s => some s
  | .fault => none
  | .timeout => none

/-! ## Private functions of `memman.c` -/

/-- The function `GetBlock(offset)`: `NULL` for `NULL_LINK`, else `memory + offset`. -/
def GetBlock (offset : Nat) : Option Nat :=
  if offset = NULL_LINK then none else some offset

/-- The function `GetOffset(block)`: `(u32)((void *)block - memory)`. -/
def GetOffset (block : Nat) : Nat := u32 block

/-- The `while ( 1 )` loop of `FindFreeBlock`, entered with `rover = st.rover`. -/
def FindFreeBlock.loop (size start : Nat) : Nat → State → Res (Option Nat)
  | 0, _ => .timeout
  | fuel + 1, st =>
    match GetBlock st.rover with
    | none => .fault
    | some block =>
      if getIsFree st.memory block ≠ 0 ∧ getSize st.memory block ≥ size then
        .ret (some block) st
      else
        let rover := getNext st.memory block
        if rover = start then
          .ret none { st with rover := rover }
        else if rover = NULL_LINK then
          FindFreeBlock.loop size start fuel { st with rover := 0 }
        else
          FindFreeBlock.loop size start fuel { st with rover := rover }

/-- The function `FindFreeBlock(size)`: the first free block of at least `size` bytes,
searching from `rover`. -/
def FindFreeBlock (fuel : Nat) (st : State) (size : Nat) : Res (Option Nat) :=
  FindFreeBlock.loop size st.rover fuel st

/-- The loop `while ( b->next != NULL_LINK ) b = GetBlock(b->next);` of
`GetFreeBlock`: the last block of the list, from block `b`. -/
def lastBlock (m : Mem) : Nat → Nat → Option Nat
  | 0, _ => none
  | fuel + 1, b =>
    if getNext m b ≠ NULL_LINK then lastBlock m fuel (getNext m b) else some b

/-- The `do ... while` loop of `GetFreeBlock`, run after a failed search. -/
def GetFreeBlock.grow (env : Env) (size inner : Nat) : Nat → State → Res (Option Nat)
  | 0, _ => .timeout
  | fuel + 1, st =>
    let old_size := st.allocated
    let allocated := u32 (st.allocated + st.realloc_increment)
    match env.realloc allocated with
    | none => .ret none { st with allocated := allocated }
    | some junk =>
      let memory : Mem := fun x => if x < min old_size allocated then st.memory x else junk x
      match GetBlock old_size with
      | none => .fault
      | some new_block =>
        let m1 := setId memory new_block MM_ID
        let m2 := setIsFree m1 new_block 1
        let m3 := setSize m2 new_block (u32 (usize (sub32 allocated old_size + 2 ^ 64 - sizeofBlock)))
        match lastBlock m3 inner 0 with
        | none => .timeout
        | some b =>
          let m4 := setNext m3 b (GetOffset new_block)
          let m5 := setPrev m4 new_block (GetOffset b)
          let m6 := setNext m5 new_block NULL_LINK
          match FindFreeBlock inner { st with allocated := allocated, memory := m6 } size with
          | .ret none st1 => GetFreeBlock.grow env size inner fuel st1
          | r => r

/-- The function `GetFreeBlock(size)`: a free block, reallocating `memory` if necessary. -/
def GetFreeBlock (env : Env) (fuel : Nat) (st : State) (size : Nat) : Res (Option Nat) :=
  match FindFreeBlock fuel st size with
  | .ret none st1 => GetFreeBlock.grow env size fuel fuel st1
  | r => r

/-- The function `TrySplitBlock(block, requested_size)`; `none` when the block pointer
`GetBlock(block_offset + size_needed)` is `NULL`. -/
def TrySplitBlock (m : Mem) (block requested_size : Nat) : Option Mem :=
  let size_needed := u32 (usize (requested_size + sizeofBlock))
  let excess := sub32 (getSize m block) requested_size
  if excess > sizeofBlock then
    let block_offset := GetOffset block
    match GetBlock (u32 (block_offset + size_needed)) with
    | none => none
    | some split =>
      let m1 := setId m split MM_ID
      let m2 := setIsFree m1 split 1
      let m3 := setSize m2 split (u32 (excess - sizeofBlock))
      let m4 := setPrev m3 split block_offset
      let m5 := setNext m4 split (getNext m4 block)
      let m6 := setNext m5 block (GetOffset split)
      let m7 := setSize m6 block requested_size
      some m7
  else
    some m

/-- The function `TryMergeBlock(block)`: merge `block` with the blocks on either side, if
they are free.  `prev` and `next` are the offsets `block->prev` and
`block->next`; the pointers `GetBlock` makes of them are `NULL` exactly when
the offset is `NULL_LINK`, and they are dereferenced only when they are not. -/
def TryMergeBlock (m : Mem) (block : Nat) : Mem :=
  let prev := getPrev m block
  let next := getNext m block
  let merge_prev : Bool := GetBlock prev ≠ none && getIsFree m prev ≠ 0
  let merge_next : Bool := GetBlock next ≠ none && getIsFree m next ≠ 0
  if merge_prev && merge_next then
    let m1 := setSize m prev (u32 (getSize m prev + usize (getSize m block + sizeofBlock)))
    let m2 := setSize m1 prev (u32 (getSize m1 prev + usize (getSize m1 next + sizeofBlock)))
    setNext m2 prev (getNext m2 next)
  else if merge_prev then
    let m1 := setSize m prev (u32 (getSize m prev + usize (getSize m block + sizeofBlock)))
    setNext m1 prev (getNext m1 block)
  else if merge_next then
    let m1 := setSize m block (u32 (getSize m block + usize (getSize m next + sizeofBlock)))
    setNext m1 block (getNext m1 next)
  else
    m

/-! ## Public functions of `memman.c` -/

/-- The function `MM_Init(size)`: allocate `memory` and set up the initial block.
The messages on `stderr` and the `atexit` registration are left out. -/
def MM_Init (env : Env) (st : State) (size : Nat) : Bool × State :=
  if st.allocated ≠ 0 then
    (false, st)
  else if size > MEM_MAX ∨ size < MEM_MIN then
    (false, st)
  else
    let st1 := { st with allocated := u32 size, realloc_increment := u32 size }
    match env.malloc st1.allocated with
    | none => (false, st1)
    | some buf =>
      let block := 0
      let m1 := setId buf block MM_ID
      let m2 := setIsFree m1 block 1
      let m3 := setSize m2 block (u32 (usize (st1.realloc_increment + 2 ^ 64 - sizeofBlock)))
      let m4 := setPrev m3 block NULL_LINK
      let m5 := setNext m4 block NULL_LINK
      (true, { st1 with memory := m5 })

/-- The function `MM_malloc(size)`. -/
def MM_malloc (env : Env) (fuel : Nat) (st : State) (size : Nat) : Res (Option Nat) :=
  if size > usize (st.allocated + 2 ^ 64 - sizeofBlock) ∨ size = 0 then
    .ret none st
  else
    let requested_size := u32 size
    match GetFreeBlock env fuel st requested_size with
    | .ret none st1 => .ret none st1
    | .ret (some block) st1 =>
      let split : Option Mem :=
        if getSize st1.memory block > requested_size then
          TrySplitBlock st1.memory block requested_size
        else
          some st1.memory
      match split with
      | none => .fault
      | some m1 =>
        let m2 := setIsFree m1 block 0
        let m3 := setId m2 block MM_ID
        .ret (some (block + sizeofBlock)) { st1 with memory := m3 }
    | .fault => .fault
    | .timeout => .timeout

/-- The function `MM_free(mem)`; it always returns, so the result is the state. -/
def MM_free (st : State) (mem : Option Nat) : State :=
  match mem with
  | none => st
  | some p =>
    let block := p - sizeofBlock
    if getId st.memory block ≠ MM_ID then
      st
    else if getIsFree st.memory block ≠ 0 then
      st
    else
      let m1 := setIsFree st.memory block 1
      { st with memory := TryMergeBlock m1 block }

/-- The function `MM_calloc(count, size)`. -/
def MM_calloc (env : Env) (fuel : Nat) (st : State) (count size : Nat) : Res (Option Nat) :=
  let bytes := usize (count * size)
  match MM_malloc env fuel st bytes with
  | .ret (some mem) st1 => .ret (some mem) { st1 with memory := memset0 st1.memory mem bytes }
  | r => r

/-- The function `MM_realloc(mem, size)`, for a non-`NULL` `mem`. -/
def MM_realloc (env : Env) (fuel : Nat) (st : State) (mem size : Nat) : Res (Option Nat) :=
  match MM_malloc env fuel st size with
  | .ret (some new_mem) st1 =>
    let block := mem - sizeofBlock
    let m1 := memmove st1.memory (new_mem + sizeofBlock) (mem + sizeofBlock)
      (getSize st1.memory block)
    .ret (some new_mem) (MM_free { st1 with memory := m1 } (some mem))
  | r => r

/-! ## Clients, block list and scenarios -/

/-- The state of the statics before `MM_Init`: all zero. -/
def State.zero : State :=
  { realloc_increment := 0, allocated := 0, rover := 0, memory := fun _ => 0 }

/-- A platform whose `malloc` succeeds and hands out a buffer of non-zero junk
bytes (`x % 251 + 1` at offset `x`), and whose `realloc` fails. -/
def Env.noGrow : Env :=
  { malloc := fun _ => some (fun x => x % 251 + 1), realloc := fun _ => none }

/-- A step of a client: a call of the public interface, or the store
`*(int *)ptr = value` into memory it was handed. -/
inductive Call where
  | malloc (size : Nat)
  | free (ptr : Nat)
  | store (ptr value : Nat)

/-- Run a sequence of client steps; the result lists what each `MM_malloc` returned. -/
def run (env : Env) (fuel : Nat) : State → List Call → Res (List (Option Nat))
  | st, [] => .ret [] st
  | st, Call.malloc size :: rest =>
    match MM_malloc env fuel st size with
    | .ret p st1 =>
      match run env fuel st1 rest with
      | .ret ps st2 => .ret (p :: ps) st2
      | .fault => .fault
      | .timeout => .timeout
    | .fault => .fault
    | .timeout => .timeout
  | st, Call.free ptr :: rest => run env fuel (MM_free st (some ptr)) rest
  | st, Call.store ptr value :: rest =>
    run env fuel { st with memory := wr32 st.memory ptr value } rest

/-- The pair `a = MM_malloc(s); MM_free(a);`, `n` times, with `a` the payload
pointer at offset 16. -/
def roundTrips (s : Nat) : Nat → List Call
  | 0 => []
  | n + 1 => Call.malloc s :: Call.free sizeofBlock :: roundTrips s n

/-- The first loop of `TestPerformance` in `main.c`, `count` times:
`int * a = MM_malloc(sizeof(*a)); *a = 42; MM_free(a);` with `a` the payload
pointer at offset 16. -/
def TestPerformance : Nat → List Call
  | 0 => []
  | count + 1 =>
    Call.malloc 4 :: Call.store sizeofBlock 42 :: Call.free sizeofBlock :: TestPerformance count

/-- The state after the call, or the zero state if the call did not return. -/
def Res.stateD {α : Type} : Res α → State
  | .ret _ s => s
  | .fault => State.zero
  | .timeout => State.zero

/-- The blocks reachable from block `b` through `next` links, as `PrintMemory`
walks them: `do { ... } while ( (block = GetBlock(block->next)) );`. -/
def blockList (m : Mem) : Nat → Nat → List Nat
  | 0, _ => []
  | fuel + 1, b =>
    b :: (if getNext m b = NULL_LINK then [] else blockList m fuel (getNext m b))

/-- Total payload bytes of the free blocks among `bs`. -/
def totalFree (m : Mem) (bs : List Nat) : Nat :=
  ((bs.filter fun b => getIsFree m b ≠ 0).map (getSize m)).sum

/-- The payloads `[p, p + size)` and `[q, q + size)` of the blocks behind the
payload pointers `p` and `q` have a byte in common. -/
def payloadsOverlap (m : Mem) (p q : Nat) : Bool :=
  decide (p < q + getSize m (q - sizeofBlock) ∧ q < p + getSize m (p - sizeofBlock))

/-- The blocks at `b` and `c` are both free and `c` starts where `b` ends. -/
def adjacentFree (m : Mem) (b c : Nat) : Bool :=
  decide (getIsFree m b ≠ 0 ∧ getIsFree m c ≠ 0 ∧ b + sizeofBlock + getSize m b = c)

/-- The state `MM_Init(size)` creates: one free block at offset 0 that spans
the arena, `rover` at 0. -/
def isInitial (st : State) (size : Nat) : Prop :=
  st.allocated = size ∧ st.realloc_increment = size ∧ st.rover = 0 ∧
  getId st.memory 0 = MM_ID ∧ getIsFree st.memory 0 ≠ 0 ∧
  getSize st.memory 0 = size - sizeofBlock ∧
  getPrev st.memory 0 = NULL_LINK ∧ getNext st.memory 0 = NULL_LINK

/-- The arena right after `MM_malloc(s)` on the initial state: the block at
offset 0 is used and either still spans the arena, or has payload `s` and is
followed by the free block that the split made of the rest. -/
def handedOut (m : Mem) (s size : Nat) : Prop :=
  getId m 0 = MM_ID ∧ getIsFree m 0 = 0 ∧ getPrev m 0 = NULL_LINK ∧
  ((getSize m 0 = size - 16 ∧ getNext m 0 = NULL_LINK) ∨
    (16 < size - 16 - s ∧ getSize m 0 = s ∧ getNext m 0 = s + 16 ∧
      getIsFree m (s + 16) = 1 ∧ getSize m (s + 16) = size - 16 - s - 16 ∧
      getNext m (s + 16) = NULL_LINK))

/-- The memory `TrySplitBlock` leaves when it splits: the header written at
`split`, then the two fields of `block` it updates. -/
def splitMem (m : Mem) (block requested_size split : Nat) : Mem :=
  let m1 := setId m split MM_ID
  let m2 := setIsFree m1 split 1
  let m3 := setSize m2 split (u32 (sub32 (getSize m block) requested_size - sizeofBlock))
  let m4 := setPrev m3 split (GetOffset block)
  let m5 := setNext m4 split (getNext m4 block)
  let m6 := setNext m5 block (GetOffset split)
  setSize m6 block requested_size

/-- The arena of `main.c`: `MM_Init(256)` on the zeroed statics. -/
def arena256 : State := (MM_Init Env.noGrow State.zero 256).2

/-- The arena of `main.c` after one `MM_malloc(s)`. -/
def usedArena (s : Nat) : State := (MM_malloc Env.noGrow 1 arena256 s).stateD

/-- A client that releases two neighbouring blocks and allocates twice more;
every `free` is of a pointer that an earlier `malloc` of the list returned
(offsets 16 and 132) and that was not released since. -/
def staleRoverCalls : List Call :=
  [.malloc 100, .malloc 10, .free 16, .free 132, .malloc 5, .malloc 200]

/-- A client that re-uses the first block while its right neighbour is live,
then releases the neighbour (offsets 16 and 132 are what the first two
`malloc` calls return). -/
def stalePrevCalls : List Call :=
  [.malloc 100, .malloc 100, .free 16, .malloc 10, .free 132]

/-- A client of a 2 GiB arena that fills it and asks for one byte more. -/
def wrapCalls : List Call := [.malloc 10, .malloc (2 ^ 31 - 42), .malloc 1]

/-! ## Block list properties and further scenarios -/

/-- The blocks `bs`, in list order, end where the next one starts, the last one
has `next = NULL_LINK` and ends at `capacity`. -/
def tilesFrom (m : Mem) (capacity : Nat) : List Nat → Bool
  | [] => false
  | [b] => decide (getNext m b = NULL_LINK ∧ b + sizeofBlock + getSize m b = capacity)
  | b :: c :: rest =>
    decide (getNext m b = c ∧ b + sizeofBlock + getSize m b = c) && tilesFrom m capacity (c :: rest)

/-- The blocks `bs` tile `[0, allocated)`: the first is at offset 0 and each
`offset + 16 + size` is the offset of the next block, or `allocated` for the tail. -/
def tiles (st : State) (bs : List Nat) : Bool :=
  decide (bs.head? = some 0) && tilesFrom st.memory st.allocated bs

/-- Each block of `bs` has the block before it as `prev`; `p` is before the first. -/
def prevAgrees (m : Mem) : Nat → List Nat → Bool
  | _, [] => true
  | p, b :: rest => decide (getPrev m b = p) && prevAgrees m b rest

/-- The `prev` links of the list `bs` agree with its `next` links: the first
block has `prev = NULL_LINK`, every other block has the block before it. -/
def linksAgree (m : Mem) (bs : List Nat) : Bool := prevAgrees m NULL_LINK bs

/-- A platform whose `malloc` and `realloc` both succeed and hand out non-zero
junk bytes (`x % 251 + 1` at offset `x`). -/
def Env.grow : Env :=
  { malloc := fun _ => some (fun x => x % 251 + 1),
    realloc := fun _ => some (fun x => x % 251 + 1) }

/-- A client that releases the first two of three blocks, in address order. -/
def mergePrevCalls : List Call :=
  [.malloc 50, .malloc 50, .malloc 50, .free 16, .free 82]

/-- A client that fills the 256-byte arena of `main.c` up to a free rest of 8
bytes and asks for 100 bytes more. -/
def growCalls : List Call := [.malloc 100, .malloc 100, .malloc 100]

/-- A client of a 3 GiB arena that fills it and asks for one byte more. -/
def wrapCalls3 : List Call := [.malloc 10, .malloc (3 * 2 ^ 30 - 42), .malloc 1]

/-- One pass through the body of the `do ... while` loop of `GetFreeBlock`, up
to the loop test: it returns `false` when `realloc` fails (the function then
returns `NULL`) and `true` when the new block is linked in. -/
def growStep (env : Env) (inner : Nat) (st : State) : Res Bool :=
  let old_size := st.allocated
  let allocated := u32 (st.allocated + st.realloc_increment)
  match env.realloc allocated with
  | none => .ret false { st with allocated := allocated }
  | some junk =>
    let memory : Mem := fun x => if x < min old_size allocated then st.memory x else junk x
    match GetBlock old_size with
    | none => .fault
    | some new_block =>
      let m1 := setId memory new_block MM_ID
      let m2 := setIsFree m1 new_block 1
      let m3 := setSize m2 new_block (u32 (usize (sub32 allocated old_size + 2 ^ 64 - sizeofBlock)))
      match lastBlock m3 inner 0 with
      | none => .timeout
      | some b =>
        let m4 := setNext m3 b (GetOffset new_block)
        let m5 := setPrev m4 new_block (GetOffset b)
        let m6 := setNext m5 new_block NULL_LINK
        .ret true { st with allocated := allocated, memory := m6 }

/-- The memory after a successful growth step: the `realloc`ed buffer with the
new header at `c` (the old `allocated`) linked behind the tail `t`. -/
def grownMem (m junk : Mem) (c inc t : Nat) : Mem :=
  setNext (setPrev (setNext (setSize (setIsFree (setId
    (fun x => if x < c then m x else junk x) c MM_ID) c 1) c (inc - 16)) t c) c t) c NULL_LINK


/-- The arena of `main.c` after the client calls `calls`. -/
def stateAfter (calls : List Call) : State := (run Env.noGrow 8 arena256 calls).stateD

/-- The memory of the arena after `calls`, with the block behind the payload
pointer `p` marked free: what `MM_free(p)` hands to `TryMergeBlock`. -/
def justFreed (calls : List Call) (p : Nat) : Mem :=
  setIsFree (stateAfter calls).memory (p - sizeofBlock) 1

/-- The 3 GiB arena after the first two calls of `wrapCalls3`, with a `realloc`
that succeeds: the two blocks 0 and 26 are used and tile the whole arena. -/
def filled3G : State :=
  (run Env.grow 8 (MM_Init Env.grow State.zero (3 * 2 ^ 30)).2 (wrapCalls3.take 2)).stateD

/-- The test of `FindFreeBlock`: the block at `b` is free and has at least
`size` bytes of payload. -/
def fits (m : Mem) (size b : Nat) : Bool :=
  decide (getIsFree m b ≠ 0 ∧ getSize m b ≥ size)

/-- The blocks `bs` are what a walk along `next` links visits from `a` until it
arrives at `e`: `a` is the first of them, each `next` is the one after it, and
the `next` of the last is `e`; no block pointer of the walk is `NULL`. -/
def isRun (m : Mem) : Nat → List Nat → Nat → Prop
  | a, [], e => a = e
  | a, b :: rest, e => a = b ∧ b ≠ NULL_LINK ∧ isRun m (getNext m b) rest e

/-! ## Bytes: reading after writing -/

theorem wr8_outside (m : Mem) (a v x : Nat) (h : x ≠ a) : wr8 m a v x = m x := by
  simp [wr8, h]

theorem wr16_outside (m : Mem) (a v x : Nat) (h : x < a ∨ a + 2 ≤ x) : wr16 m a v x = m x := by
  unfold wr16
  rw [wr8_outside _ _ _ _ (by omega), wr8_outside _ _ _ _ (by omega)]

theorem wr32_outside (m : Mem) (a v x : Nat) (h : x < a ∨ a + 4 ≤ x) : wr32 m a v x = m x := by
  unfold wr32
  rw [wr8_outside _ _ _ _ (by omega), wr8_outside _ _ _ _ (by omega),
    wr8_outside _ _ _ _ (by omega), wr8_outside _ _ _ _ (by omega)]

theorem rd8_congr (m m' : Mem) (b : Nat) (h : m b = m' b) : rd8 m b = rd8 m' b := by
  simp [rd8, h]

theorem rd16_congr (m m' : Mem) (b : Nat) (h : ∀ x, b ≤ x → x < b + 2 → m x = m' x) :
    rd16 m b = rd16 m' b := by
  simp [rd16, rd8, h b (by omega) (by omega), h (b + 1) (by omega) (by omega)]

theorem rd32_congr (m m' : Mem) (b : Nat) (h : ∀ x, b ≤ x → x < b + 4 → m x = m' x) :
    rd32 m b = rd32 m' b := by
  simp [rd32, rd8, h b (by omega) (by omega), h (b + 1) (by omega) (by omega),
    h (b + 2) (by omega) (by omega), h (b + 3) (by omega) (by omega)]

theorem rd8_wr8_same (m : Mem) (a v : Nat) : rd8 (wr8 m a v) a = v % 256 := by
  simp [rd8, wr8]

theorem rd16_wr16_same (m : Mem) (a v : Nat) : rd16 (wr16 m a v) a = v % 65536 := by
  simp [rd16, wr16, rd8, wr8]
  omega

theorem rd32_wr32_same (m : Mem) (a v : Nat) : rd32 (wr32 m a v) a = v % 4294967296 := by
  simp [rd32, wr32, rd8, wr8]
  omega

theorem rd8_lt (m : Mem) (a : Nat) : rd8 m a < 256 := by
  unfold rd8; omega

theorem rd16_lt (m : Mem) (a : Nat) : rd16 m a < 65536 := by
  have h0 := rd8_lt m a
  have h1 := rd8_lt m (a + 1)
  unfold rd16; omega

theorem rd32_lt (m : Mem) (a : Nat) : rd32 m a < 4294967296 := by
  have h0 := rd8_lt m a
  have h1 := rd8_lt m (a + 1)
  have h2 := rd8_lt m (a + 2)
  have h3 := rd8_lt m (a + 3)
  unfold rd32; omega

theorem rd8_wr8_disj (m : Mem) (a v b : Nat) (h : b ≠ a) : rd8 (wr8 m a v) b = rd8 m b :=
  rd8_congr _ _ _ (wr8_outside m a v b h)

theorem rd8_wr16_disj (m : Mem) (a v b : Nat) (h : b < a ∨ a + 2 ≤ b) :
    rd8 (wr16 m a v) b = rd8 m b :=
  rd8_congr _ _ _ (wr16_outside m a v b h)

theorem rd8_wr32_disj (m : Mem) (a v b : Nat) (h : b < a ∨ a + 4 ≤ b) :
    rd8 (wr32 m a v) b = rd8 m b :=
  rd8_congr _ _ _ (wr32_outside m a v b h)

theorem rd16_wr8_disj (m : Mem) (a v b : Nat) (h : a < b ∨ b + 2 ≤ a) :
    rd16 (wr8 m a v) b = rd16 m b :=
  rd16_congr _ _ _ (fun x _ _ => wr8_outside m a v x (by omega))

theorem rd16_wr16_disj (m : Mem) (a v b : Nat) (h : a + 2 ≤ b ∨ b + 2 ≤ a) :
    rd16 (wr16 m a v) b = rd16 m b :=
  rd16_congr _ _ _ (fun x _ _ => wr16_outside m a v x (by omega))

theorem rd16_wr32_disj (m : Mem) (a v b : Nat) (h : a + 4 ≤ b ∨ b + 2 ≤ a) :
    rd16 (wr32 m a v) b = rd16 m b :=
  rd16_congr _ _ _ (fun x _ _ => wr32_outside m a v x (by omega))

theorem rd32_wr8_disj (m : Mem) (a v b : Nat) (h : a < b ∨ b + 4 ≤ a) :
    rd32 (wr8 m a v) b = rd32 m b :=
  rd32_congr _ _ _ (fun x _ _ => wr8_outside m a v x (by omega))

theorem rd32_wr16_disj (m : Mem) (a v b : Nat) (h : a + 2 ≤ b ∨ b + 4 ≤ a) :
    rd32 (wr16 m a v) b = rd32 m b :=
  rd32_congr _ _ _ (fun x _ _ => wr16_outside m a v x (by omega))

theorem rd32_wr32_disj (m : Mem) (a v b : Nat) (h : a + 4 ≤ b ∨ b + 4 ≤ a) :
    rd32 (wr32 m a v) b = rd32 m b :=
  rd32_congr _ _ _ (fun x _ _ => wr32_outside m a v x (by omega))

/-! ### Header fields: reading after writing -/

@[simp]
theorem getId_setId (m : Mem) (b v : Nat) : getId (setId m b v) b = v % 65536 := by
  simp only [getId, setId, rd16_wr16_same]

@[simp]
theorem getIsFree_setIsFree (m : Mem) (b v : Nat) : getIsFree (setIsFree m b v) b = v % 256 := by
  simp only [getIsFree, setIsFree, rd8_wr8_same]

@[simp]
theorem getSize_setSize (m : Mem) (b v : Nat) : getSize (setSize m b v) b = v % 4294967296 := by
  simp only [getSize, setSize, rd32_wr32_same]

@[simp]
theorem getPrev_setPrev (m : Mem) (b v : Nat) : getPrev (setPrev m b v) b = v % 4294967296 := by
  simp only [getPrev, setPrev, rd32_wr32_same]

@[simp]
theorem getNext_setNext (m : Mem) (b v : Nat) : getNext (setNext m b v) b = v % 4294967296 := by
  simp only [getNext, setNext, rd32_wr32_same]

@[simp]
theorem getId_setIsFree (m : Mem) (b v : Nat) : getId (setIsFree m b v) b = getId m b := by
  simp (disch := omega) only [getId, setIsFree, rd16_wr8_disj]

@[simp]
theorem getId_setSize (m : Mem) (b v : Nat) : getId (setSize m b v) b = getId m b := by
  simp (disch := omega) only [getId, setSize, rd16_wr32_disj]

@[simp]
theorem getId_setPrev (m : Mem) (b v : Nat) : getId (setPrev m b v) b = getId m b := by
  simp (disch := omega) only [getId, setPrev, rd16_wr32_disj]

@[simp]
theorem getId_setNext (m : Mem) (b v : Nat) : getId (setNext m b v) b = getId m b := by
  simp (disch := omega) only [getId, setNext, rd16_wr32_disj]

@[simp]
theorem getIsFree_setId (m : Mem) (b v : Nat) : getIsFree (setId m b v) b = getIsFree m b := by
  simp (disch := omega) only [getIsFree, setId, rd8_wr16_disj]

@[simp]
theorem getIsFree_setSize (m : Mem) (b v : Nat) : getIsFree (setSize m b v) b = getIsFree m b := by
  simp (disch := omega) only [getIsFree, setSize, rd8_wr32_disj]

@[simp]
theorem getIsFree_setPrev (m : Mem) (b v : Nat) : getIsFree (setPrev m b v) b = getIsFree m b := by
  simp (disch := omega) only [getIsFree, setPrev, rd8_wr32_disj]

@[simp]
theorem getIsFree_setNext (m : Mem) (b v : Nat) : getIsFree (setNext m b v) b = getIsFree m b := by
  simp (disch := omega) only [getIsFree, setNext, rd8_wr32_disj]

@[simp]
theorem getSize_setId (m : Mem) (b v : Nat) : getSize (setId m b v) b = getSize m b := by
  simp (disch := omega) only [getSize, setId, rd32_wr16_disj]

@[simp]
theorem getSize_setIsFree (m : Mem) (b v : Nat) : getSize (setIsFree m b v) b = getSize m b := by
  simp (disch := omega) only [getSize, setIsFree, rd32_wr8_disj]

@[simp]
theorem getSize_setPrev (m : Mem) (b v : Nat) : getSize (setPrev m b v) b = getSize m b := by
  simp (disch := omega) only [getSize, setPrev, rd32_wr32_disj]

@[simp]
theorem getSize_setNext (m : Mem) (b v : Nat) : getSize (setNext m b v) b = getSize m b := by
  simp (disch := omega) only [getSize, setNext, rd32_wr32_disj]

@[simp]
theorem getPrev_setId (m : Mem) (b v : Nat) : getPrev (setId m b v) b = getPrev m b := by
  simp (disch := omega) only [getPrev, setId, rd32_wr16_disj]

@[simp]
theorem getPrev_setIsFree (m : Mem) (b v : Nat) : getPrev (setIsFree m b v) b = getPrev m b := by
  simp (disch := omega) only [getPrev, setIsFree, rd32_wr8_disj]

@[simp]
theorem getPrev_setSize (m : Mem) (b v : Nat) : getPrev (setSize m b v) b = getPrev m b := by
  simp (disch := omega) only [getPrev, setSize, rd32_wr32_disj]

@[simp]
theorem getPrev_setNext (m : Mem) (b v : Nat) : getPrev (setNext m b v) b = getPrev m b := by
  simp (disch := omega) only [getPrev, setNext, rd32_wr32_disj]

@[simp]
theorem getNext_setId (m : Mem) (b v : Nat) : getNext (setId m b v) b = getNext m b := by
  simp (disch := omega) only [getNext, setId, rd32_wr16_disj]

@[simp]
theorem getNext_setIsFree (m : Mem) (b v : Nat) : getNext (setIsFree m b v) b = getNext m b := by
  simp (disch := omega) only [getNext, setIsFree, rd32_wr8_disj]

@[simp]
theorem getNext_setSize (m : Mem) (b v : Nat) : getNext (setSize m b v) b = getNext m b := by
  simp (disch := omega) only [getNext, setSize, rd32_wr32_disj]

@[simp]
theorem getNext_setPrev (m : Mem) (b v : Nat) : getNext (setPrev m b v) b = getNext m b := by
  simp (disch := omega) only [getNext, setPrev, rd32_wr32_disj]

/-! ### Header fields: a write to one header leaves a header 16 bytes away as it is -/

@[simp]
theorem getId_setId_far (m : Mem) (b v c : Nat) (h : b + 16 ≤ c ∨ c + 16 ≤ b) :
    getId (setId m b v) c = getId m c := by
  simp (disch := omega) only [getId, setId, rd16_wr16_disj]

@[simp]
theorem getId_setIsFree_far (m : Mem) (b v c : Nat) (h : b + 16 ≤ c ∨ c + 16 ≤ b) :
    getId (setIsFree m b v) c = getId m c := by
  simp (disch := omega) only [getId, setIsFree, rd16_wr8_disj]

@[simp]
theorem getId_setSize_far (m : Mem) (b v c : Nat) (h : b + 16 ≤ c ∨ c + 16 ≤ b) :
    getId (setSize m b v) c = getId m c := by
  simp (disch := omega) only [getId, setSize, rd16_wr32_disj]

@[simp]
theorem getId_setPrev_far (m : Mem) (b v c : Nat) (h : b + 16 ≤ c ∨ c + 16 ≤ b) :
    getId (setPrev m b v) c = getId m c := by
  simp (disch := omega) only [getId, setPrev, rd16_wr32_disj]

@[simp]
theorem getId_setNext_far (m : Mem) (b v c : Nat) (h : b + 16 ≤ c ∨ c + 16 ≤ b) :
    getId (setNext m b v) c = getId m c := by
  simp (disch := omega) only [getId, setNext, rd16_wr32_disj]

@[simp]
theorem getIsFree_setId_far (m : Mem) (b v c : Nat) (h : b + 16 ≤ c ∨ c + 16 ≤ b) :
    getIsFree (setId m b v) c = getIsFree m c := by
  simp (disch := omega) only [getIsFree, setId, rd8_wr16_disj]

@[simp]
theorem getIsFree_setIsFree_far (m : Mem) (b v c : Nat) (h : b + 16 ≤ c ∨ c + 16 ≤ b) :
    getIsFree (setIsFree m b v) c = getIsFree m c := by
  simp (disch := omega) only [getIsFree, setIsFree, rd8_wr8_disj]

@[simp]
theorem getIsFree_setSize_far (m : Mem) (b v c : Nat) (h : b + 16 ≤ c ∨ c + 16 ≤ b) :
    getIsFree (setSize m b v) c = getIsFree m c := by
  simp (disch := omega) only [getIsFree, setSize, rd8_wr32_disj]

@[simp]
theorem getIsFree_setPrev_far (m : Mem) (b v c : Nat) (h : b + 16 ≤ c ∨ c + 16 ≤ b) :
    getIsFree (setPrev m b v) c = getIsFree m c := by
  simp (disch := omega) only [getIsFree, setPrev, rd8_wr32_disj]

@[simp]
theorem getIsFree_setNext_far (m : Mem) (b v c : Nat) (h : b + 16 ≤ c ∨ c + 16 ≤ b) :
    getIsFree (setNext m b v) c = getIsFree m c := by
  simp (disch := omega) only [getIsFree, setNext, rd8_wr32_disj]

@[simp]
theorem getSize_setId_far (m : Mem) (b v c : Nat) (h : b + 16 ≤ c ∨ c + 16 ≤ b) :
    getSize (setId m b v) c = getSize m c := by
  simp (disch := omega) only [getSize, setId, rd32_wr16_disj]

@[simp]
theorem getSize_setIsFree_far (m : Mem) (b v c : Nat) (h : b + 16 ≤ c ∨ c + 16 ≤ b) :
    getSize (setIsFree m b v) c = getSize m c := by
  simp (disch := omega) only [getSize, setIsFree, rd32_wr8_disj]

@[simp]
theorem getSize_setSize_far (m : Mem) (b v c : Nat) (h : b + 16 ≤ c ∨ c + 16 ≤ b) :
    getSize (setSize m b v) c = getSize m c := by
  simp (disch := omega) only [getSize, setSize, rd32_wr32_disj]

@[simp]
theorem getSize_setPrev_far (m : Mem) (b v c : Nat) (h : b + 16 ≤ c ∨ c + 16 ≤ b) :
    getSize (setPrev m b v) c = getSize m c := by
  simp (disch := omega) only [getSize, setPrev, rd32_wr32_disj]

@[simp]
theorem getSize_setNext_far (m : Mem) (b v c : Nat) (h : b + 16 ≤ c ∨ c + 16 ≤ b) :
    getSize (setNext m b v) c = getSize m c := by
  simp (disch := omega) only [getSize, setNext, rd32_wr32_disj]

@[simp]
theorem getPrev_setId_far (m : Mem) (b v c : Nat) (h : b + 16 ≤ c ∨ c + 16 ≤ b) :
    getPrev (setId m b v) c = getPrev m c := by
  simp (disch := omega) only [getPrev, setId, rd32_wr16_disj]

@[simp]
theorem getPrev_setIsFree_far (m : Mem) (b v c : Nat) (h : b + 16 ≤ c ∨ c + 16 ≤ b) :
    getPrev (setIsFree m b v) c = getPrev m c := by
  simp (disch := omega) only [getPrev, setIsFree, rd32_wr8_disj]

@[simp]
theorem getPrev_setSize_far (m : Mem) (b v c : Nat) (h : b + 16 ≤ c ∨ c + 16 ≤ b) :
    getPrev (setSize m b v) c = getPrev m c := by
  simp (disch := omega) only [getPrev, setSize, rd32_wr32_disj]

@[simp]
theorem getPrev_setPrev_far (m : Mem) (b v c : Nat) (h : b + 16 ≤ c ∨ c + 16 ≤ b) :
    getPrev (setPrev m b v) c = getPrev m c := by
  simp (disch := omega) only [getPrev, setPrev, rd32_wr32_disj]

@[simp]
theorem getPrev_setNext_far (m : Mem) (b v c : Nat) (h : b + 16 ≤ c ∨ c + 16 ≤ b) :
    getPrev (setNext m b v) c = getPrev m c := by
  simp (disch := omega) only [getPrev, setNext, rd32_wr32_disj]

@[simp]
theorem getNext_setId_far (m : Mem) (b v c : Nat) (h : b + 16 ≤ c ∨ c + 16 ≤ b) :
    getNext (setId m b v) c = getNext m c := by
  simp (disch := omega) only [getNext, setId, rd32_wr16_disj]

@[simp]
theorem getNext_setIsFree_far (m : Mem) (b v c : Nat) (h : b + 16 ≤ c ∨ c + 16 ≤ b) :
    getNext (setIsFree m b v) c = getNext m c := by
  simp (disch := omega) only [getNext, setIsFree, rd32_wr8_disj]

@[simp]
theorem getNext_setSize_far (m : Mem) (b v c : Nat) (h : b + 16 ≤ c ∨ c + 16 ≤ b) :
    getNext (setSize m b v) c = getNext m c := by
  simp (disch := omega) only [getNext, setSize, rd32_wr32_disj]

@[simp]
theorem getNext_setPrev_far (m : Mem) (b v c : Nat) (h : b + 16 ≤ c ∨ c + 16 ≤ b) :
    getNext (setPrev m b v) c = getNext m c := by
  simp (disch := omega) only [getNext, setPrev, rd32_wr32_disj]

@[simp]
theorem getNext_setNext_far (m : Mem) (b v c : Nat) (h : b + 16 ≤ c ∨ c + 16 ≤ b) :
    getNext (setNext m b v) c = getNext m c := by
  simp (disch := omega) only [getNext, setNext, rd32_wr32_disj]

/-! ## Wrap-around and ranges -/

@[simp]
theorem u32_mod (n : Nat) : u32 n % 4294967296 = u32 n := by
  unfold u32; omega

theorem u32_of_lt (n : Nat) (h : n < 4294967296) : u32 n = n := by
  unfold u32; omega

theorem usize_of_lt (n : Nat) (h : n < 18446744073709551616) : usize n = n := by
  unfold usize; omega

theorem getSize_lt (m : Mem) (b : Nat) : getSize m b < 4294967296 := rd32_lt m (b + 4)

theorem getPrev_lt (m : Mem) (b : Nat) : getPrev m b < 4294967296 := rd32_lt m (b + 8)

theorem getNext_lt (m : Mem) (b : Nat) : getNext m b < 4294967296 := rd32_lt m (b + 12)

@[simp]
theorem getNext_mod (m : Mem) (b : Nat) : getNext m b % 4294967296 = getNext m b :=
  Nat.mod_eq_of_lt (getNext_lt m b)

@[simp]
theorem getSize_mod (m : Mem) (b : Nat) : getSize m b % 4294967296 = getSize m b :=
  Nat.mod_eq_of_lt (getSize_lt m b)

/-! ## Search, split and merge -/

theorem FindFreeBlock.loop_found (size start : Nat) :
    ∀ (fuel : Nat) (st st' : State) (b : Nat),
      FindFreeBlock.loop size start fuel st = .ret (some b) st' →
      getIsFree st'.memory b ≠ 0 ∧ size ≤ getSize st'.memory b := by
  intro fuel
  induction fuel with
  | zero => intro st st' b h; simp [FindFreeBlock.loop] at h
  | succ n ih =>
    intro st st' b h
    unfold FindFreeBlock.loop at h
    split at h
    · simp at h
    · rename_i block hb
      split at h
      · rename_i hc
        simp only [Res.ret.injEq, Option.some.injEq] at h
        obtain ⟨h1, h2⟩ := h
        subst h1 h2
        exact ⟨hc.1, hc.2⟩
      · simp only at h
        split at h
        · simp at h
        · split at h
          · exact ih _ _ _ h
          · exact ih _ _ _ h

theorem FindFreeBlock_found (fuel : Nat) (st st' : State) (size b : Nat)
    (h : FindFreeBlock fuel st size = .ret (some b) st') :
    getIsFree st'.memory b ≠ 0 ∧ size ≤ getSize st'.memory b :=
  FindFreeBlock.loop_found size st.rover fuel st st' b h

theorem GetFreeBlock.grow_found (env : Env) (size inner : Nat) :
    ∀ (fuel : Nat) (st st' : State) (b : Nat),
      GetFreeBlock.grow env size inner fuel st = .ret (some b) st' →
      getIsFree st'.memory b ≠ 0 ∧ size ≤ getSize st'.memory b := by
  intro fuel
  induction fuel with
  | zero => intro st st' b h; simp [GetFreeBlock.grow] at h
  | succ n ih =>
    intro st st' b h
    unfold GetFreeBlock.grow at h
    simp only at h
    split at h
    · simp at h
    · split at h
      · simp at h
      · split at h
        · simp at h
        · split at h
          · exact ih _ _ _ h
          · rename_i r hr
            exact FindFreeBlock_found _ _ _ _ _ h

theorem GetFreeBlock_found (env : Env) (fuel : Nat) (st st' : State) (size b : Nat)
    (h : GetFreeBlock env fuel st size = .ret (some b) st') :
    getIsFree st'.memory b ≠ 0 ∧ size ≤ getSize st'.memory b := by
  unfold GetFreeBlock at h
  split at h
  · exact GetFreeBlock.grow_found _ _ _ _ _ _ _ h
  · exact FindFreeBlock_found _ _ _ _ _ h

theorem FindFreeBlock_at_rover (fuel : Nat) (st : State) (size : Nat)
    (hr : st.rover ≠ NULL_LINK) (hf : getIsFree st.memory st.rover ≠ 0)
    (hs : size ≤ getSize st.memory st.rover) :
    FindFreeBlock (fuel + 1) st size = .ret (some st.rover) st := by
  unfold FindFreeBlock FindFreeBlock.loop GetBlock
  simp [hr, hf, hs]

theorem GetFreeBlock_at_rover (env : Env) (fuel : Nat) (st : State) (size : Nat)
    (hr : st.rover ≠ NULL_LINK) (hf : getIsFree st.memory st.rover ≠ 0)
    (hs : size ≤ getSize st.memory st.rover) :
    GetFreeBlock env (fuel + 1) st size = .ret (some st.rover) st := by
  unfold GetFreeBlock
  rw [FindFreeBlock_at_rover fuel st size hr hf hs]

theorem TrySplitBlock_split (m : Mem) (block r : Nat)
    (h : sizeofBlock < sub32 (getSize m block) r)
    (hne : u32 (GetOffset block + u32 (usize (r + sizeofBlock))) ≠ NULL_LINK) :
    TrySplitBlock m block r =
      some (splitMem m block r (u32 (GetOffset block + u32 (usize (r + sizeofBlock))))) := by
  unfold TrySplitBlock GetBlock splitMem
  simp [h, hne]

theorem TrySplitBlock_keep (m : Mem) (block r : Nat)
    (h : sub32 (getSize m block) r ≤ sizeofBlock) :
    TrySplitBlock m block r = some m := by
  unfold TrySplitBlock
  simp [Nat.not_lt.mpr h]

theorem MM_malloc_of_found (env : Env) (fuel : Nat) (st st1 : State) (s b : Nat) (m1 : Mem)
    (hguard : ¬ (s > usize (st.allocated + 2 ^ 64 - sizeofBlock) ∨ s = 0))
    (hg : GetFreeBlock env fuel st (u32 s) = .ret (some b) st1)
    (hsplit : (if getSize st1.memory b > u32 s then TrySplitBlock st1.memory b (u32 s)
      else some st1.memory) = some m1) :
    MM_malloc env fuel st s =
      .ret (some (b + sizeofBlock)) { st1 with memory := setId (setIsFree m1 b 0) b MM_ID } := by
  unfold MM_malloc
  simp only [hguard, if_false, hg, hsplit]

theorem splitMem_split (m : Mem) (block r split : Nat) (hfar : block + 16 ≤ split) :
    getId (splitMem m block r split) split = MM_ID ∧
    getIsFree (splitMem m block r split) split = 1 ∧
    getSize (splitMem m block r split) split = u32 (sub32 (getSize m block) r - sizeofBlock) ∧
    getPrev (splitMem m block r split) split = GetOffset block ∧
    getNext (splitMem m block r split) split = getNext m block := by
  unfold splitMem GetOffset
  simp (disch := omega) [MM_ID]

theorem splitMem_block (m : Mem) (block r split : Nat) (hfar : block + 16 ≤ split) :
    getId (splitMem m block r split) block = getId m block ∧
    getIsFree (splitMem m block r split) block = getIsFree m block ∧
    getSize (splitMem m block r split) block = u32 r ∧
    getPrev (splitMem m block r split) block = getPrev m block ∧
    getNext (splitMem m block r split) block = GetOffset split := by
  unfold splitMem GetOffset
  simp (disch := omega) [u32]

theorem splitMem_far (m : Mem) (block r split c : Nat)
    (h1 : block + 16 ≤ c ∨ c + 16 ≤ block) (h2 : split + 16 ≤ c ∨ c + 16 ≤ split) :
    getId (splitMem m block r split) c = getId m c ∧
    getIsFree (splitMem m block r split) c = getIsFree m c ∧
    getSize (splitMem m block r split) c = getSize m c ∧
    getPrev (splitMem m block r split) c = getPrev m c ∧
    getNext (splitMem m block r split) c = getNext m c := by
  unfold splitMem
  simp (disch := omega)

theorem TryMergeBlock_next (m : Mem) (block : Nat)
    (hp : getPrev m block = NULL_LINK ∨ getIsFree m (getPrev m block) = 0)
    (hn : getNext m block ≠ NULL_LINK) (hf : getIsFree m (getNext m block) ≠ 0) :
    TryMergeBlock m block =
      setNext (setSize m block
          (u32 (getSize m block + usize (getSize m (getNext m block) + sizeofBlock)))) block
        (getNext (setSize m block
          (u32 (getSize m block + usize (getSize m (getNext m block) + sizeofBlock))))
          (getNext m block)) := by
  unfold TryMergeBlock GetBlock
  rcases hp with hp | hp
  · simp [hp, hn, hf]
  · simp [hp, hn, hf]

theorem TryMergeBlock_none (m : Mem) (block : Nat)
    (hp : getPrev m block = NULL_LINK ∨ getIsFree m (getPrev m block) = 0)
    (hn : getNext m block = NULL_LINK ∨ getIsFree m (getNext m block) = 0) :
    TryMergeBlock m block = m := by
  unfold TryMergeBlock GetBlock
  rcases hp with hp | hp <;> rcases hn with hn | hn <;> simp [hp, hn]

theorem MM_free_used (st : State) (p : Nat) (hid : getId st.memory (p - sizeofBlock) = MM_ID)
    (hu : getIsFree st.memory (p - sizeofBlock) = 0) :
    MM_free st (some p) =
      { st with
        memory := (TryMergeBlock (setIsFree st.memory (p - sizeofBlock) 1) (p - sizeofBlock)) } := by
  unfold MM_free
  simp [hid, hu]

/-- The fields of the header at `c` depend on the 16 bytes from `c` on only. -/
theorem header_congr (m m' : Mem) (c : Nat) (h : ∀ x, c ≤ x → x < c + 16 → m x = m' x) :
    getId m c = getId m' c ∧ getIsFree m c = getIsFree m' c ∧ getSize m c = getSize m' c ∧
    getPrev m c = getPrev m' c ∧ getNext m c = getNext m' c :=
  ⟨rd16_congr _ _ _ fun x h1 h2 => h x h1 (by omega),
    rd8_congr _ _ _ (h _ (by omega) (by omega)),
    rd32_congr _ _ _ fun x h1 h2 => h x (by omega) (by omega),
    rd32_congr _ _ _ fun x h1 h2 => h x (by omega) (by omega),
    rd32_congr _ _ _ fun x h1 h2 => h x (by omega) (by omega)⟩

/-- On the state `MM_Init(size)` creates, `MM_malloc(s)` hands out the payload
at offset 16 and leaves `rover` and `allocated` as they are. -/
theorem malloc_initial (env : Env) (fuel : Nat) (st : State) (size s : Nat)
    (hlo : 256 ≤ size) (hhi : size ≤ 2 ^ 32 - 1) (hs0 : 0 < s) (hs : s ≤ size - 16)
    (hi : isInitial st size) :
    ∃ m, MM_malloc env (fuel + 1) st s = .ret (some 16) { st with memory := m } ∧
      handedOut m s size := by
  obtain ⟨ha, hinc, hrov, hid, hfree, hsize, hprev, hnext⟩ := hi
  have h16 : sizeofBlock = 16 := rfl
  have hMM : MM_ID % 65536 = MM_ID := by decide
  have hu : usize (st.allocated + 2 ^ 64 - sizeofBlock) = size - 16 := by
    rw [ha, h16]; unfold usize; omega
  have hu32 : u32 s = s := u32_of_lt _ (by omega)
  have hg : GetFreeBlock env (fuel + 1) st (u32 s) = .ret (some 0) st := by
    have := GetFreeBlock_at_rover env fuel st s (by rw [hrov]; decide)
      (by rw [hrov]; exact hfree) (by rw [hrov, hsize]; exact hs)
    rw [hrov] at this
    rw [hu32]
    exact this
  have hguard : ¬ (s > usize (st.allocated + 2 ^ 64 - sizeofBlock) ∨ s = 0) := by
    rw [hu]; omega
  have hsub : sub32 (getSize st.memory 0) s = size - 16 - s := by
    rw [hsize, h16]; unfold sub32; omega
  by_cases hsp : 16 < size - 16 - s
  · -- the block is split at `s + 16`
    have hoff : u32 (GetOffset 0 + u32 (usize (s + sizeofBlock))) = s + 16 := by
      simp only [GetOffset, u32, usize, h16]
      omega
    have hsplit : (if getSize st.memory 0 > u32 s then TrySplitBlock st.memory 0 (u32 s)
        else some st.memory) = some (splitMem st.memory 0 s (s + 16)) := by
      rw [hu32, hsize, if_pos (by omega), TrySplitBlock_split _ _ _ (by rw [hsub]; exact hsp)
        (by rw [hoff]; unfold NULL_LINK; omega), hoff]
    refine ⟨_, MM_malloc_of_found env (fuel + 1) st st s 0 _ hguard hg hsplit, ?_⟩
    obtain ⟨-, s2, s3, -, s5⟩ := splitMem_split st.memory 0 s (s + 16) (by omega)
    obtain ⟨-, -, b3, b4, b5⟩ := splitMem_block st.memory 0 s (s + 16) (by omega)
    have hGo : GetOffset (s + 16) = s + 16 := u32_of_lt _ (by omega)
    have hex : u32 (sub32 (getSize st.memory 0) s - sizeofBlock) = size - 16 - s - 16 := by
      rw [hsub, h16]; exact u32_of_lt _ (by omega)
    refine ⟨by simp [hMM], by simp, by simp [b4, hprev], Or.inr ⟨hsp, ?_, ?_, ?_, ?_, ?_⟩⟩
    · simp [b3, hu32]
    · simp [b5, hGo]
    · simp (disch := omega) [s2]
    · simp (disch := omega) [s3, hex]
    · simp (disch := omega) [s5, hnext]
  · -- no split: the block is handed out whole
    have hsplit : (if getSize st.memory 0 > u32 s then TrySplitBlock st.memory 0 (u32 s)
        else some st.memory) = some st.memory := by
      rw [hu32]
      split
      · exact TrySplitBlock_keep _ _ _ (by rw [hsub, h16]; omega)
      · rfl
    refine ⟨_, MM_malloc_of_found env (fuel + 1) st st s 0 _ hguard hg hsplit, ?_⟩
    exact ⟨by simp [hMM], by simp, by simp [hprev],
      Or.inl ⟨by simp [hsize, h16], by simp [hnext]⟩⟩

/-- What the client writes into the payload `[16, 16 + s)` does not change the
description of the arena. -/
theorem handedOut_of_payload_write (m m' : Mem) (s size : Nat)
    (hw : ∀ x, x < 16 ∨ 16 + s ≤ x → m' x = m x) (h : handedOut m s size) :
    handedOut m' s size := by
  obtain ⟨a1, a2, a3, a4, a5⟩ := header_congr m' m 0 fun x _ h2 => hw x (Or.inl (by omega))
  obtain ⟨-, c2, c3, -, c5⟩ :=
    header_congr m' m (s + 16) fun x h1 _ => hw x (Or.inr (by omega))
  obtain ⟨h1, h2, h3, h4⟩ := h
  refine ⟨a1.trans h1, a2.trans h2, a4.trans h3, ?_⟩
  rcases h4 with ⟨k1, k2⟩ | ⟨k0, k1, k2, k3, k4, k5⟩
  · exact Or.inl ⟨a3.trans k1, a5.trans k2⟩
  · exact Or.inr ⟨k0, a3.trans k1, a5.trans k2, c2.trans k3, c3.trans k4, c5.trans k5⟩

/-- Releasing the pointer at offset 16 of an arena as `MM_malloc(s)` left it
gives the initial state back: a split block merges with the rest again. -/
theorem free_handedOut (st : State) (size s : Nat)
    (hlo : 256 ≤ size) (hhi : size ≤ 2 ^ 32 - 1)
    (ha : st.allocated = size) (hinc : st.realloc_increment = size) (hrov : st.rover = 0)
    (h : handedOut st.memory s size) :
    isInitial (MM_free st (some 16)) size := by
  obtain ⟨h1, h2, h3, h4⟩ := h
  have hMM : MM_ID % 65536 = MM_ID := by decide
  have hNm : NULL_LINK % 4294967296 = NULL_LINK := by decide
  have e : MM_free st (some 16) =
      { st with memory := (TryMergeBlock (setIsFree st.memory 0 1) 0) } :=
    MM_free_used st 16 h1 h2
  rw [e]
  rcases h4 with ⟨k1, k2⟩ | ⟨k0, k1, k2, k3, k4, k5⟩
  · rw [TryMergeBlock_none _ _ (by left; simp [h3]) (by left; simp [k2])]
    simp [isInitial, ha, hinc, hrov, h1, h3, k1, k2, sizeofBlock]
  · have hne : s + 16 ≠ NULL_LINK := by unfold NULL_LINK; omega
    have hV : u32 (s + usize (size - 16 - s - 16 + 16)) = size - 16 := by
      rw [usize_of_lt _ (by omega), u32_of_lt _ (by omega)]
      omega
    rw [TryMergeBlock_next _ _ (by left; simp [h3]) (by simp [k2, hne])
      (by simp (disch := omega) [k2, k3])]
    simp (disch := omega) [isInitial, ha, hinc, hrov, sizeofBlock, hNm, h1, h3, k1, k2, k3, k4,
      k5, hV]
    rw [usize_of_lt _ (by omega), u32_of_lt _ (by omega)]
    omega

/-! ## C1: payloads of used blocks -/

/-- C1 (broken by the code). After `MM_Init(256)` the client `staleRoverCalls`
gets offset 16, then 132, releases both, and then gets offset 132 from
`MM_malloc(5)` and offset 16 from `MM_malloc(200)`.  Both blocks are marked
used at the end, the one at header 0 with payload size 200 and the one at
header 116 with payload size 10: the payload `[132, 142)` lies inside the
payload `[16, 216)`.  The arena did not grow.  The second release merged block
116 into block 0 while `rover` stayed at 116, and the next search handed the
absorbed header out. -/
theorem used_payloads_overlap :
    (run Env.noGrow 8 arena256 staleRoverCalls).val?
      = some [some 16, some 132, some 132, some 16] ∧
    ((run Env.noGrow 8 arena256 staleRoverCalls).st?.map fun st =>
        (st.allocated, getIsFree st.memory 0, getSize st.memory 0,
          getIsFree st.memory 116, getSize st.memory 116, payloadsOverlap st.memory 132 16))
      = some (256, 0, 200, 0, 10, true) ∧
    ((run Env.noGrow 8 arena256 (staleRoverCalls.take 4)).st?.map fun st =>
        (st.rover, blockList st.memory 8 0, getSize st.memory 0))
      = some (116, [0], 240) := by
  decide

/-! ## C2: round trip in a reachable state -/

/-- C2 (broken by the code). After `MM_Init(256)` and the client
`stalePrevCalls` the block list has 3 blocks and 198 free payload bytes.
`MM_malloc(74)` is satisfied without growth (it returns offset 42, `allocated`
stays 256), and after `MM_free` of that pointer the list has 2 blocks and 214
free payload bytes. -/
theorem round_trip_changes_list :
    ((run Env.noGrow 8 arena256 stalePrevCalls).st?.map fun st =>
        (st.allocated, (blockList st.memory 8 0).length,
          totalFree st.memory (blockList st.memory 8 0)))
      = some (256, 3, 198) ∧
    (run Env.noGrow 8 arena256 (stalePrevCalls ++ [.malloc 74])).val?
      = some [some 16, some 132, some 16, some 42] ∧
    ((run Env.noGrow 8 arena256 (stalePrevCalls ++ [.malloc 74, .free 42])).st?.map fun st =>
        (st.allocated, (blockList st.memory 8 0).length,
          totalFree st.memory (blockList st.memory 8 0)))
      = some (256, 2, 214) := by
  decide

/-! ## C3: round trip on a fresh arena -/

/-- On the zeroed statics, `MM_Init(size)` with a size in range and a `malloc`
that succeeds returns `true` and creates the initial state. -/
theorem MM_Init_initial (env : Env) (buf : Mem) (size : Nat)
    (hlo : 256 ≤ size) (hhi : size ≤ 2 ^ 32 - 1) (hm : env.malloc size = some buf) :
    ∃ st0, MM_Init env State.zero size = (true, st0) ∧ isInitial st0 size := by
  have hu : u32 size = size := u32_of_lt _ (by omega)
  have hg : ¬ (size > MEM_MAX ∨ size < MEM_MIN) := by
    unfold MEM_MAX U32_MAX MEM_MIN; omega
  have hsz : u32 (usize (size + 18446744073709551616 - sizeofBlock)) = size - sizeofBlock := by
    simp only [u32, usize, sizeofBlock]; omega
  have hMM : MM_ID % 65536 = MM_ID := by decide
  have hNm : NULL_LINK % 4294967296 = NULL_LINK := by decide
  unfold MM_Init
  simp only [State.zero, ne_eq, not_true_eq_false, if_false, hg, hu, hm]
  refine ⟨_, rfl, ?_⟩
  simp [isInitial, hsz, hMM, hNm]
  omega

/-- One round from the initial state: `MM_malloc(s)` returns offset 16, and
after any store by the client into the payload `[16, 16 + s)`, `MM_free` of
offset 16 gives the initial state again. -/
theorem round_trip_step (env : Env) (fuel size s : Nat)
    (hlo : 256 ≤ size) (hhi : size ≤ 2 ^ 32 - 1) (hs0 : 0 < s) (hs : s ≤ size - 16)
    (st : State) (hi : isInitial st size) :
    ∃ st1, MM_malloc env (fuel + 1) st s = .ret (some 16) st1 ∧
      ∀ m, (∀ x, x < 16 ∨ 16 + s ≤ x → m x = st1.memory x) →
        isInitial (MM_free { st1 with memory := m } (some 16)) size := by
  obtain ⟨m1, h1, h2⟩ := malloc_initial env fuel st size s hlo hhi hs0 hs hi
  refine ⟨_, h1, fun m hw => ?_⟩
  exact free_handedOut _ size s hlo hhi hi.1 hi.2.1 hi.2.2.1
    (handedOut_of_payload_write m1 m s size hw h2)

theorem run_malloc (env : Env) (fuel : Nat) (st st1 st2 : State) (size : Nat)
    (p : Option Nat) (ps : List (Option Nat)) (rest : List Call)
    (h1 : MM_malloc env fuel st size = .ret p st1)
    (h2 : run env fuel st1 rest = .ret ps st2) :
    run env fuel st (Call.malloc size :: rest) = .ret (p :: ps) st2 := by
  unfold run
  rw [h1]
  simp only [h2]

theorem run_free (env : Env) (fuel : Nat) (st : State) (ptr : Nat) (rest : List Call) :
    run env fuel st (Call.free ptr :: rest) = run env fuel (MM_free st (some ptr)) rest := by
  rw [run]

theorem run_store (env : Env) (fuel : Nat) (st : State) (ptr value : Nat) (rest : List Call) :
    run env fuel st (Call.store ptr value :: rest)
      = run env fuel { st with memory := wr32 st.memory ptr value } rest := by
  rw [run]

/-- From the initial state, `n` rounds of `MM_malloc(s)`/`MM_free` each hand out
offset 16 and end in the initial state again. -/
theorem run_roundTrips (env : Env) (fuel size s : Nat)
    (hlo : 256 ≤ size) (hhi : size ≤ 2 ^ 32 - 1) (hs0 : 0 < s) (hs : s ≤ size - 16) :
    ∀ (n : Nat) (st : State), isInitial st size →
      ∃ stn, run env (fuel + 1) st (roundTrips s n) = .ret (List.replicate n (some 16)) stn ∧
        isInitial stn size := by
  intro n
  induction n with
  | zero => intro st hi; exact ⟨st, rfl, hi⟩
  | succ k ih =>
    intro st hi
    obtain ⟨st1, h1, h2⟩ := round_trip_step env fuel size s hlo hhi hs0 hs st hi
    obtain ⟨stn, h3, h4⟩ := ih _ (h2 st1.memory fun _ _ => rfl)
    refine ⟨stn, ?_, h4⟩
    rw [List.replicate_succ]
    exact run_malloc env (fuel + 1) st st1 stn s _ _ _ h1 (by rw [run_free]; exact h3)

/-- From the initial state, the loop of `TestPerformance` hands out offset 16 in
every round, stores 42 there, and ends in the initial state again. -/
theorem run_TestPerformance (env : Env) (fuel size : Nat)
    (hlo : 256 ≤ size) (hhi : size ≤ 2 ^ 32 - 1) :
    ∀ (n : Nat) (st : State), isInitial st size →
      ∃ stn, run env (fuel + 1) st (TestPerformance n) = .ret (List.replicate n (some 16)) stn ∧
        isInitial stn size := by
  intro n
  induction n with
  | zero => intro st hi; exact ⟨st, rfl, hi⟩
  | succ k ih =>
    intro st hi
    obtain ⟨st1, h1, h2⟩ :=
      round_trip_step env fuel size 4 hlo hhi (by omega) (by omega) st hi
    obtain ⟨stn, h3, h4⟩ :=
      ih _ (h2 (wr32 st1.memory 16 42) fun x hx => wr32_outside _ _ _ _ (by omega))
    refine ⟨stn, ?_, h4⟩
    rw [List.replicate_succ]
    exact run_malloc env (fuel + 1) st st1 stn 4 _ _ _ h1
      (by rw [run_store, run_free]; exact h3)

/-- C3. For every `size` with `256 ≤ size ≤ 2^32 - 1` and every `s` with
`0 < s ≤ size - 16`: `MM_Init(size)` succeeds and creates one free block at
offset 0 (tag `0xBEEF`, payload `size - 16`, `prev = next = NULL_LINK`,
`rover = 0`, `allocated = size`); `MM_malloc(s)` then returns the pointer at
offset 16 and `MM_free` of it restores a state of exactly that description;
hence any number `n` of `MM_malloc(s)`/`MM_free` rounds returns offset 16 each
time and ends in that state, and so does the loop of `TestPerformance` in
`main.c`, which stores 42 into the payload in between.  The search returns for
every positive loop bound. -/
theorem fresh_round_trip (env : Env) (buf : Mem) (fuel size s : Nat)
    (hlo : 256 ≤ size) (hhi : size ≤ 2 ^ 32 - 1) (hs0 : 0 < s) (hs : s ≤ size - 16)
    (hm : env.malloc size = some buf) :
    ∃ st0, MM_Init env State.zero size = (true, st0) ∧ isInitial st0 size ∧
      (∃ st1, MM_malloc env (fuel + 1) st0 s = .ret (some 16) st1 ∧
        isInitial (MM_free st1 (some 16)) size) ∧
      (∀ n, ∃ stn,
        run env (fuel + 1) st0 (roundTrips s n) = .ret (List.replicate n (some 16)) stn ∧
        isInitial stn size) ∧
      ∀ n, ∃ stn,
        run env (fuel + 1) st0 (TestPerformance n) = .ret (List.replicate n (some 16)) stn ∧
        isInitial stn size := by
  obtain ⟨st0, h0, hi⟩ := MM_Init_initial env buf size hlo hhi hm
  obtain ⟨st1, h1, h2⟩ := round_trip_step env fuel size s hlo hhi hs0 hs st0 hi
  exact ⟨st0, h0, hi, ⟨st1, h1, h2 st1.memory fun _ _ => rfl⟩,
    fun n => run_roundTrips env fuel size s hlo hhi hs0 hs n st0 hi,
    fun n => run_TestPerformance env fuel size hlo hhi n st0 hi⟩

/-- Witness for C3: `MM_Init(256)`, then `MM_malloc(4)`/`MM_free` repeated, as in `main.c`. -/
theorem fresh_round_trip_witness :
    ∃ st0, MM_Init Env.noGrow State.zero 256 = (true, st0) ∧ isInitial st0 256 ∧
      (∃ st1, MM_malloc Env.noGrow 1 st0 4 = .ret (some 16) st1 ∧
        isInitial (MM_free st1 (some 16)) 256) ∧
      (∀ n, ∃ stn,
        run Env.noGrow 1 st0 (roundTrips 4 n) = .ret (List.replicate n (some 16)) stn ∧
        isInitial stn 256) ∧
      ∀ n, ∃ stn,
        run Env.noGrow 1 st0 (TestPerformance n) = .ret (List.replicate n (some 16)) stn ∧
        isInitial stn 256 :=
  fresh_round_trip Env.noGrow (fun x => x % 251 + 1) 0 256 4 (by decide) (by decide)
    (by decide) (by decide) rfl

/-! ## C4: coalescing closure -/

/-- C4 (broken by the code). After `MM_Init(256)` the client `stalePrevCalls`
ends with `MM_free` of the used pointer 132.  Afterwards the block list is
`[0, 26, 116]`, and the blocks at 26 and 116 are both free and physically
adjacent: `26 + 16 + 74 = 116`.  The split that created block 26 left the
`prev` link of block 116 at 0, so the release of block 116 looked at block 0
(used) and not at block 26. -/
theorem adjacent_free_after_release :
    (run Env.noGrow 8 arena256 stalePrevCalls).val? = some [some 16, some 132, some 16] ∧
    ((run Env.noGrow 8 arena256 stalePrevCalls).st?.map fun st =>
        (st.allocated, blockList st.memory 8 0, adjacentFree st.memory 26 116))
      = some (256, [0, 26, 116], true) ∧
    ((run Env.noGrow 8 arena256 stalePrevCalls).st?.map fun st =>
        (getIsFree st.memory 26, getSize st.memory 26, getIsFree st.memory 116,
          getPrev st.memory 116))
      = some (1, 74, 1, 0) := by
  decide

/-! ## C5: release on caller misuse -/

/-- A merge leaves the tag and the free flag of `block` as they are, when the
`prev` link of `block` is `NULL_LINK` or the header it names ends before `block`. -/
theorem TryMergeBlock_keeps_tag (m : Mem) (block : Nat)
    (hp : getPrev m block = NULL_LINK ∨ getPrev m block + 16 ≤ block) :
    getId (TryMergeBlock m block) block = getId m block ∧
    getIsFree (TryMergeBlock m block) block = getIsFree m block := by
  unfold TryMergeBlock GetBlock
  by_cases hn : getPrev m block = NULL_LINK
  · simp only [hn, if_true, ne_eq, not_true_eq_false, decide_False, Bool.false_and,
      Bool.false_eq_true, if_false]
    split_ifs <;> simp
  · have hfar : getPrev m block + 16 ≤ block := by
      rcases hp with hp | hp
      · exact absurd hp hn
      · exact hp
    simp only []
    split_ifs <;> simp (disch := omega)

/-- C5. For every state and every pointer `p` into the arena (`16 ≤ p`): if
the header at `p - 16` has a tag other than `0xBEEF`, or has the tag and is
already marked free, `MM_free(p)` leaves the whole state (every byte of
`memory`, `rover`, `allocated`, `realloc_increment`) unchanged.  In particular
the second of two consecutive `MM_free(p)` calls changes nothing, when the
`prev` link of that header is `NULL_LINK` or names a header that ends before it. -/
theorem free_misuse_noop (st : State) (p : Nat) (_hp : sizeofBlock ≤ p) :
    ((getId st.memory (p - sizeofBlock) ≠ MM_ID ∨
        (getId st.memory (p - sizeofBlock) = MM_ID ∧
          getIsFree st.memory (p - sizeofBlock) ≠ 0)) →
      MM_free st (some p) = st) ∧
    ((getPrev st.memory (p - sizeofBlock) = NULL_LINK ∨
        getPrev st.memory (p - sizeofBlock) + 16 ≤ p - sizeofBlock) →
      MM_free (MM_free st (some p)) (some p) = MM_free st (some p)) := by
  have noop : ∀ t : State,
      (getId t.memory (p - sizeofBlock) ≠ MM_ID ∨
        (getId t.memory (p - sizeofBlock) = MM_ID ∧
          getIsFree t.memory (p - sizeofBlock) ≠ 0)) →
      MM_free t (some p) = t := by
    intro t h
    unfold MM_free
    rcases h with h | ⟨h1, h2⟩
    · simp [h]
    · simp [h1, h2]
  refine ⟨noop st, fun hprev => ?_⟩
  by_cases hid : getId st.memory (p - sizeofBlock) = MM_ID
  · by_cases hfr : getIsFree st.memory (p - sizeofBlock) = 0
    · rw [MM_free_used st p hid hfr]
      apply noop
      right
      have hk := TryMergeBlock_keeps_tag (setIsFree st.memory (p - sizeofBlock) 1)
        (p - sizeofBlock) (by simpa using hprev)
      simp only [hk.1, hk.2]
      simp [hid]
    · rw [noop st (Or.inr ⟨hid, hfr⟩)]
      exact noop st (Or.inr ⟨hid, hfr⟩)
  · rw [noop st (Or.inl hid)]
    exact noop st (Or.inl hid)

/-- Witness for C5, on the arena of `main.c`: a pointer whose header has a
junk tag (offset 100 of the fresh arena); the pointer at offset 16 after it
was released once; and two consecutive releases of the live pointer at
offset 16. -/
theorem free_misuse_noop_witness :
    MM_free arena256 (some 100) = arena256 ∧
    MM_free (MM_free (usedArena 4) (some 16)) (some 16) = MM_free (usedArena 4) (some 16) ∧
    MM_free (MM_free (usedArena 4) (some 16)) (some 16) = MM_free (usedArena 4) (some 16) :=
  ⟨(free_misuse_noop arena256 100 (by decide)).1 (Or.inl (by decide)),
    (free_misuse_noop (MM_free (usedArena 4) (some 16)) 16 (by decide)).1
      (Or.inr ⟨by decide, by decide⟩),
    (free_misuse_noop (usedArena 4) 16 (by decide)).2 (Or.inl (by decide))⟩

/-! ## C6: invalid sizes are rejected without side effects -/

/-- C6. On an arena whose capacity is at least one header (`16 ≤ allocated`,
a `u32`), for every `size` that is zero or greater than `allocated - 16`,
`MM_malloc(size)` returns `NULL` at once, for every loop bound, and the state
it leaves is the state it found: `allocated` (no growth), `rover`,
`realloc_increment` and every byte of `memory` are unchanged. -/
theorem malloc_rejects_invalid_size (env : Env) (fuel : Nat) (st : State) (size : Nat)
    (hcap : sizeofBlock ≤ st.allocated) (h32 : st.allocated < 2 ^ 32)
    (h : size = 0 ∨ size > st.allocated - sizeofBlock) :
    MM_malloc env fuel st size = .ret none st := by
  have hu : usize (st.allocated + 2 ^ 64 - sizeofBlock) = st.allocated - sizeofBlock := by
    have h16 : sizeofBlock = 16 := rfl
    rw [h16] at hcap ⊢
    unfold usize
    omega
  unfold MM_malloc
  rw [hu]
  rcases h with h | h
  · simp [h]
  · simp [h]

/-- Witness for C6: `MM_Init(256); MM_malloc(300)`. -/
theorem malloc_rejects_invalid_size_witness :
    MM_malloc Env.noGrow 8 arena256 300 = .ret none arena256 :=
  malloc_rejects_invalid_size Env.noGrow 8 arena256 300 (by decide) (by decide)
    (Or.inr (by decide))

/-! ## C7: what a successful `MM_malloc` leaves -/

/-- C7. Whenever `MM_malloc(s)` returns a non-`NULL` pointer `p` (`s` a `u32`
value, as it is on every arena of capacity at least 16 that lets `s` pass the
size check), the header at `p - 16` is marked used, carries the tag `0xBEEF`
and has a payload size `n` with `s ≤ n ≤ s + 16`.  With `b = p - 16` the block
the search located and `k` its payload size then: `n = s` when the block was
split (`k - s > 16`), and `n = k` otherwise, the excess `n - s ≤ 16` staying
with the block as slack.  So `n = s` holds in the split case and, with a slack
of zero, when the located block fitted exactly (`k = s`), and in no other case. -/
theorem malloc_postcondition (env : Env) (fuel : Nat) (st st' : State) (s p : Nat)
    (hs : s < 2 ^ 32) (h : MM_malloc env fuel st s = .ret (some p) st') :
    sizeofBlock ≤ p ∧
    getIsFree st'.memory (p - sizeofBlock) = 0 ∧
    getId st'.memory (p - sizeofBlock) = MM_ID ∧
    s ≤ getSize st'.memory (p - sizeofBlock) ∧
    getSize st'.memory (p - sizeofBlock) ≤ s + sizeofBlock ∧
    ∃ st1, GetFreeBlock env fuel st s = .ret (some (p - sizeofBlock)) st1 ∧
      (sizeofBlock < getSize st1.memory (p - sizeofBlock) - s →
        getSize st'.memory (p - sizeofBlock) = s) ∧
      (getSize st1.memory (p - sizeofBlock) - s ≤ sizeofBlock →
        getSize st'.memory (p - sizeofBlock) = getSize st1.memory (p - sizeofBlock)) ∧
      (getSize st'.memory (p - sizeofBlock) = s ↔
        (sizeofBlock < getSize st1.memory (p - sizeofBlock) - s ∨
          getSize st1.memory (p - sizeofBlock) = s)) := by
  have hu : u32 s = s := by unfold u32; omega
  unfold MM_malloc at h
  rw [hu] at h
  split at h
  · simp at h
  · simp only at h
    split at h
    · simp at h
    · rename_i block st1 hg
      have hf := GetFreeBlock_found _ _ _ _ _ _ hg
      have hlt := getSize_lt st1.memory block
      split at h
      · simp at h
      · rename_i m1 hm
        simp only [Res.ret.injEq, Option.some.injEq] at h
        obtain ⟨hp, hst⟩ := h
        subst hp hst
        simp only [Nat.add_sub_cancel]
        have hid : getId (setId (setIsFree m1 block 0) block MM_ID) block = MM_ID := by
          rw [getId_setId]; decide
        have hfr : getIsFree (setId (setIsFree m1 block 0) block MM_ID) block = 0 := by
          rw [getIsFree_setId, getIsFree_setIsFree]
        have hsz : getSize (setId (setIsFree m1 block 0) block MM_ID) block
            = getSize m1 block := by
          rw [getSize_setId, getSize_setIsFree]
        refine ⟨Nat.le_add_left _ _, hfr, hid, ?_⟩
        rw [hsz]
        -- the size field after the optional split
        have key : (sizeofBlock < getSize st1.memory block - s → getSize m1 block = s) ∧
            (getSize st1.memory block - s ≤ sizeofBlock →
              getSize m1 block = getSize st1.memory block) := by
          split at hm
          · rename_i hgt
            unfold TrySplitBlock at hm
            have hex : sub32 (getSize st1.memory block) s = getSize st1.memory block - s := by
              unfold sub32
              omega
            rw [hex] at hm
            simp only at hm
            split at hm
            · rename_i hex2
              split at hm
              · simp at hm
              · simp only [Option.some.injEq] at hm
                subst hm
                refine ⟨fun _ => ?_, fun hle => by omega⟩
                rw [getSize_setSize]
                omega
            · rename_i hex2
              simp only [Option.some.injEq] at hm
              subst hm
              exact ⟨fun hlt2 => by omega, fun _ => rfl⟩
          · rename_i hngt
            simp only [Option.some.injEq] at hm
            subst hm
            unfold sizeofBlock
            exact ⟨fun hlt2 => by omega, fun _ => rfl⟩
        have hge := hf.2
        refine ⟨?_, ?_, st1, hg, key.1, key.2, ?_⟩
        · by_cases hc : sizeofBlock < getSize st1.memory block - s
          · rw [key.1 hc]
          · rw [key.2 (by omega)]; exact hge
        · by_cases hc : sizeofBlock < getSize st1.memory block - s
          · rw [key.1 hc]; omega
          · rw [key.2 (by omega)]; omega
        · by_cases hc : sizeofBlock < getSize st1.memory block - s
          · exact ⟨fun _ => Or.inl hc, fun _ => key.1 hc⟩
          · rw [key.2 (by omega)]
            exact ⟨fun h => Or.inr h, fun h => h.resolve_left hc⟩
    · simp at h
    · simp at h

/-- Witness for C7: `MM_Init(256); MM_malloc(4)` splits the block and returns offset 16. -/
theorem malloc_postcondition_witness :
    getIsFree (usedArena 4).memory (16 - sizeofBlock) = 0 ∧
    getId (usedArena 4).memory (16 - sizeofBlock) = MM_ID ∧
    4 ≤ getSize (usedArena 4).memory (16 - sizeofBlock) ∧
    getSize (usedArena 4).memory (16 - sizeofBlock) ≤ 4 + sizeofBlock :=
  have h := malloc_postcondition Env.noGrow 1 arena256 (usedArena 4) 4 16 (by decide) rfl
  ⟨h.2.1, h.2.2.1, h.2.2.2.1, h.2.2.2.2.1⟩

/-! ## C8: `MM_Init` refuses configuration errors -/

/-- The two guards of `MM_Init`: a size out of range, or a non-zero
`allocated`, makes it return `false` and leave the state as it is. -/
theorem MM_Init_refuses (env : Env) (st : State) (size : Nat)
    (h : size < 256 ∨ size > 2 ^ 32 - 1 ∨ st.allocated ≠ 0) :
    MM_Init env st size = (false, st) := by
  unfold MM_Init
  by_cases ha : st.allocated ≠ 0
  · rw [if_pos ha]
  · have hr : size > MEM_MAX ∨ size < MEM_MIN := by
      unfold MEM_MAX U32_MAX MEM_MIN
      omega
    rw [if_neg ha, if_pos hr]

/-- C8 (broken by the code). `MM_Init(2^31)` succeeds.  The client `wrapCalls`
then fills the arena and asks for one byte more: the growth step adds
`realloc_increment = 2^31` to `allocated = 2^31` in `u32`, `realloc` fails,
and `MM_malloc` returns `NULL` with `allocated = 0`.  A second `MM_Init(256)`
now returns `true` and overwrites `allocated` and `realloc_increment` with 256. -/
theorem init_twice_after_wrap :
    (MM_Init Env.noGrow State.zero (2 ^ 31)).1 = true ∧
    (run Env.noGrow 8 (MM_Init Env.noGrow State.zero (2 ^ 31)).2 wrapCalls).val?
      = some [some 16, some 42, none] ∧
    ((run Env.noGrow 8 (MM_Init Env.noGrow State.zero (2 ^ 31)).2 wrapCalls).st?.map fun st =>
        (st.allocated, st.realloc_increment, (MM_Init Env.noGrow st 256).1,
          (MM_Init Env.noGrow st 256).2.allocated, (MM_Init Env.noGrow st 256).2.realloc_increment))
      = some (0, 2 ^ 31, true, 256, 256) := by
  decide

/-! ## C9: zero-fill -/

/-- C9. For every count `c` and element size `s` whose product fits `size_t`,
whenever `MM_calloc(c, s)` returns a non-`NULL` pointer `p`, that pointer is
what `MM_malloc(c * s)` returned and every one of the `c * s` bytes at
`p .. p + c * s - 1` is zero afterwards, whatever `memory` held before. -/
theorem calloc_zero_fill (env : Env) (fuel : Nat) (st st' : State) (c s p : Nat)
    (hov : c * s < 2 ^ 64) (h : MM_calloc env fuel st c s = .ret (some p) st') :
    (∃ st1, MM_malloc env fuel st (c * s) = .ret (some p) st1) ∧
    ∀ i, i < c * s → st'.memory (p + i) = 0 ∧ rd8 st'.memory (p + i) = 0 := by
  have hu : usize (c * s) = c * s := usize_of_lt _ hov
  unfold MM_calloc at h
  rw [hu] at h
  simp only at h
  split at h
  · rename_i mem st1 hm
    simp only [Res.ret.injEq, Option.some.injEq] at h
    obtain ⟨hp, hst⟩ := h
    subst hp
    refine ⟨⟨st1, hm⟩, fun i hi => ?_⟩
    have hz : st'.memory (mem + i) = 0 := by
      rw [← hst]
      simp only [memset0]
      rw [if_pos ⟨Nat.le_add_right _ _, Nat.add_lt_add_left hi _⟩]
    exact ⟨hz, by unfold rd8; rw [hz]⟩
  · rename_i hne
    exact absurd h (hne p st')

/-- Witness for C9: `MM_Init(256); MM_calloc(5, 4)` on a buffer of non-zero junk. -/
theorem calloc_zero_fill_witness :
    (∃ st1, MM_malloc Env.noGrow 1 arena256 (5 * 4) = .ret (some 16) st1) ∧
    ∀ i, i < 5 * 4 →
      (MM_calloc Env.noGrow 1 arena256 5 4).stateD.memory (16 + i) = 0 ∧
      rd8 (MM_calloc Env.noGrow 1 arena256 5 4).stateD.memory (16 + i) = 0 :=
  calloc_zero_fill Env.noGrow 1 arena256 (MM_calloc Env.noGrow 1 arena256 5 4).stateD 5 4 16
    (by decide) rfl

/-! ## C10: `MM_realloc` and the payload -/

/-- C10 (broken by the code). On the arena of `main.c` after `MM_malloc(20)`
returned offset 16 (payload size 20), `MM_realloc(16, 20)` allocates without
growth and returns offset 52.  Of the 20 bytes at 52 the first 16 differ from
the bytes that were at 16, and only the last 4 agree: `memmove` copied from
`mem + 16` to `new_mem + 16`.  The copy ran 16 bytes past the new payload
`[52, 72)` and replaced the header of the block at 72 by a copy of the header
at 36 (used, `next = 72`). -/
theorem realloc_loses_payload :
    (MM_malloc Env.noGrow 1 arena256 20).val? = some (some 16) ∧
    getSize (usedArena 20).memory 0 = 20 ∧
    (MM_realloc Env.noGrow 8 (usedArena 20) 16 20).val? = some (some 52) ∧
    ((MM_realloc Env.noGrow 8 (usedArena 20) 16 20).st?.map fun st =>
        (List.range 20).map fun i =>
          decide (rd8 st.memory (52 + i) = rd8 (usedArena 20).memory (16 + i)))
      = some (List.replicate 16 false ++ List.replicate 4 true) ∧
    ((MM_realloc Env.noGrow 8 (usedArena 20) 16 20).st?.map fun st =>
        (st.allocated, getSize st.memory 36, getIsFree st.memory 72, getNext st.memory 72))
      = some (256, 20, 0, 72) := by
  decide

/-! ## C11: tiling -/

/-- C11 (broken by the code). After `MM_Init(256)` and the first five calls of
`staleRoverCalls` the pointer at offset 132 is live (the third `MM_malloc`
returned it) and the block list `[0]` still tiles `[0, 256)`.  After `MM_free`
of that pointer the list is `[0]` with payload size 380: the one block ends at
`0 + 16 + 380 = 396`, not at `allocated = 256`. -/
theorem tiling_broken_after_release :
    (run Env.noGrow 8 arena256 (staleRoverCalls.take 5)).val?
      = some [some 16, some 132, some 132] ∧
    ((run Env.noGrow 8 arena256 (staleRoverCalls.take 5)).st?.map fun st =>
        (st.allocated, blockList st.memory 8 0, tiles st (blockList st.memory 8 0)))
      = some (256, [0], true) ∧
    ((run Env.noGrow 8 arena256 (staleRoverCalls.take 5 ++ [.free 132])).st?.map fun st =>
        (st.allocated, blockList st.memory 8 0, getSize st.memory 0,
          tiles st (blockList st.memory 8 0)))
      = some (256, [0], 380, false) := by
  decide

/-! ## C12: link consistency -/

/-- C12 (broken by the code). After `MM_Init(256)` and the first three calls of
`stalePrevCalls` the list is `[0, 116, 232]` with consistent links.  The
fourth call, `MM_malloc(10)`, splits block 0, whose old next neighbour is 116:
the list becomes `[0, 26, 116, 232]`, block 26 has `next = 116`, but block 116
still has `prev = 0`, not 26.  A merge leaves a stale link as well: after
`mergePrevCalls` the list is `[0, 132, 198]` and block 132 has `prev = 66`,
the header the merge absorbed. -/
theorem split_leaves_stale_prev :
    ((run Env.noGrow 8 arena256 (stalePrevCalls.take 3)).st?.map fun st =>
        (blockList st.memory 8 0, linksAgree st.memory (blockList st.memory 8 0)))
      = some ([0, 116, 232], true) ∧
    ((run Env.noGrow 8 arena256 (stalePrevCalls.take 4)).st?.map fun st =>
        (blockList st.memory 8 0, getNext st.memory 26, getPrev st.memory 116,
          linksAgree st.memory (blockList st.memory 8 0)))
      = some ([0, 26, 116, 232], 116, 0, false) ∧
    ((run Env.noGrow 8 arena256 mergePrevCalls).st?.map fun st =>
        (blockList st.memory 8 0, getNext st.memory 0, getPrev st.memory 132,
          linksAgree st.memory (blockList st.memory 8 0)))
      = some ([0, 132, 198], 132, 66, false) := by
  decide

/-! ## C13: a failed growth -/

/-- C13 (broken by the code). After `MM_Init(256)` and two `MM_malloc(100)` the
arena has `allocated = 256`.  The third `MM_malloc(100)` of `growCalls` finds no
block, `realloc` fails on the first attempt and the call returns `NULL`;
`rover` (116) and the block list are as before, but `allocated` is 512 while
the buffer still has 256 bytes. -/
theorem failed_growth_raises_capacity :
    ((run Env.noGrow 8 arena256 (growCalls.take 2)).st?.map fun st =>
        (st.allocated, st.rover, blockList st.memory 8 0,
          tiles st (blockList st.memory 8 0)))
      = some (256, 116, [0, 116, 232], true) ∧
    (run Env.noGrow 8 arena256 growCalls).val? = some [some 16, some 132, none] ∧
    ((run Env.noGrow 8 arena256 growCalls).st?.map fun st =>
        (st.allocated, st.rover, blockList st.memory 8 0,
          tiles st (blockList st.memory 8 0)))
      = some (512, 116, [0, 116, 232], false) := by
  decide

/-! ## C14: capacity monotonicity -/

/-- C14 (broken by the code). On the arena `MM_Init(2^31)` created, the third
call of `wrapCalls` takes `allocated` from `2^31` to 0 (`realloc` fails).  On
the arena `MM_Init(3 * 2^30)` created, with a `realloc` that succeeds, the
third call of `wrapCalls3` grows the arena, returns a pointer into the new
block, and takes `allocated` from `3 * 2^30` down to `2^31`: the sum
`allocated + realloc_increment` wraps in `u32`. -/
theorem capacity_wraps :
    ((run Env.noGrow 8 (MM_Init Env.noGrow State.zero (2 ^ 31)).2 (wrapCalls.take 2)).st?.map
        fun st => st.allocated) = some (2 ^ 31) ∧
    ((run Env.noGrow 8 (MM_Init Env.noGrow State.zero (2 ^ 31)).2 wrapCalls).st?.map
        fun st => st.allocated) = some 0 ∧
    (MM_Init Env.grow State.zero (3 * 2 ^ 30)).1 = true ∧
    ((run Env.grow 8 (MM_Init Env.grow State.zero (3 * 2 ^ 30)).2 (wrapCalls3.take 2)).st?.map
        fun st => st.allocated) = some (3 * 2 ^ 30) ∧
    (run Env.grow 8 (MM_Init Env.grow State.zero (3 * 2 ^ 30)).2 wrapCalls3).val?
      = some [some 16, some 42, some (3 * 2 ^ 30 + 16)] ∧
    ((run Env.grow 8 (MM_Init Env.grow State.zero (3 * 2 ^ 30)).2 wrapCalls3).st?.map
        fun st => st.allocated) = some (2 ^ 31) := by
  decide

/-! ## C15: termination of the search -/

/-- With `rover = 0` at entry and a single block that does not fit, the loop of
`FindFreeBlock` comes back to offset 0 again and again: the test
`rover == start` sees `NULL_LINK`, never 0. -/
theorem FindFreeBlock.loop_spins (size : Nat) :
    ∀ (fuel : Nat) (st : State), st.rover = 0 →
      ¬ (getIsFree st.memory 0 ≠ 0 ∧ getSize st.memory 0 ≥ size) →
      getNext st.memory 0 = NULL_LINK →
      FindFreeBlock.loop size 0 fuel st = .timeout := by
  intro fuel
  induction fuel with
  | zero => intro st _ _ _; rfl
  | succ n ih =>
    intro st hr hfit hnext
    have hN : NULL_LINK ≠ 0 := by decide
    unfold FindFreeBlock.loop
    simp only [hr, GetBlock, hN.symm, if_false, hfit, hnext, hN, if_true]
    exact ih _ rfl hfit hnext

/-- C15 (broken by the code). On the claim's own witness, `MM_Init(256)`,
`MM_malloc(240)` (the one block is used, `rover = 0`), the search for 10 bytes
does not return "not found": for every loop bound it is still running, and so
is `MM_malloc(10)`. -/
theorem search_spins_at_rover_zero (fuel : Nat) :
    (MM_malloc Env.noGrow 1 arena256 240).val? = some (some 16) ∧
    (usedArena 240).rover = 0 ∧
    blockList (usedArena 240).memory 8 0 = [0] ∧
    FindFreeBlock fuel (usedArena 240) 10 = .timeout ∧
    MM_malloc Env.noGrow fuel (usedArena 240) 10 = .timeout := by
  have hr : (usedArena 240).rover = 0 := by decide
  have hfit : ¬ (getIsFree (usedArena 240).memory 0 ≠ 0 ∧
      getSize (usedArena 240).memory 0 ≥ 10) := by decide
  have hnext : getNext (usedArena 240).memory 0 = NULL_LINK := by decide
  have hspin : FindFreeBlock fuel (usedArena 240) 10 = .timeout := by
    unfold FindFreeBlock
    rw [hr]
    exact FindFreeBlock.loop_spins 10 fuel _ hr hfit hnext
  have hguard : ¬ (10 > usize ((usedArena 240).allocated + 2 ^ 64 - sizeofBlock) ∨ 10 = 0) := by
    decide
  refine ⟨by decide, hr, by decide, hspin, ?_⟩
  unfold MM_malloc
  rw [if_neg hguard]
  have hu : u32 10 = 10 := by decide
  simp only [hu, GetFreeBlock, hspin]

/-! ## C16: next-fit -/

theorem isRun_of_blockList (m : Mem) :
    ∀ (n a : Nat) (bs : List Nat), a ≠ NULL_LINK → blockList m (n + 1) a = bs →
      bs.length ≤ n → isRun m a bs NULL_LINK := by
  intro n
  induction n with
  | zero =>
    intro a bs _ h hlen
    rw [← h] at hlen
    simp [blockList] at hlen
  | succ n ih =>
    intro a bs ha h hlen
    rw [blockList] at h
    by_cases hnx : getNext m a = NULL_LINK
    · rw [if_pos hnx] at h
      subst h
      exact ⟨rfl, ha, hnx⟩
    · rw [if_neg hnx] at h
      subst h
      refine ⟨rfl, ha, ih (getNext m a) _ hnx rfl ?_⟩
      simp only [List.length_cons] at hlen
      omega

theorem isRun_append (m : Mem) (e : Nat) :
    ∀ (l1 l2 : List Nat) (a : Nat),
      isRun m a (l1 ++ l2) e ↔ ∃ c, isRun m a l1 c ∧ isRun m c l2 e := by
  intro l1
  induction l1 with
  | nil =>
    intro l2 a
    constructor
    · intro h; exact ⟨a, rfl, h⟩
    · rintro ⟨c, hc, h⟩
      have : a = c := hc
      rw [this]; exact h
  | cons b rest ih =>
    intro l2 a
    constructor
    · rintro ⟨h1, h2, h3⟩
      obtain ⟨c, hc1, hc2⟩ := (ih l2 _).mp h3
      exact ⟨c, ⟨h1, h2, hc1⟩, hc2⟩
    · rintro ⟨c, ⟨h1, h2, h3⟩, hc2⟩
      exact ⟨h1, h2, (ih l2 _).mpr ⟨c, h3, hc2⟩⟩

theorem isRun_det (m : Mem) :
    ∀ (l1 l2 : List Nat) (a : Nat), isRun m a l1 NULL_LINK → isRun m a l2 NULL_LINK →
      l1 = l2 := by
  intro l1
  induction l1 with
  | nil =>
    intro l2 a h1 h2
    cases l2 with
    | nil => rfl
    | cons b rest =>
      have ha : a = NULL_LINK := h1
      exact absurd (h2.1.symm.trans ha) h2.2.1
  | cons b rest ih =>
    intro l2 a h1 h2
    cases l2 with
    | nil =>
      have ha : a = NULL_LINK := h2
      exact absurd (h1.1.symm.trans ha) h1.2.1
    | cons c rest2 =>
      have hbc : b = c := h1.1.symm.trans h2.1
      subst hbc
      rw [ih rest2 _ h1.2.2 h2.2.2]

theorem isRun_nodup (m : Mem) :
    ∀ (bs : List Nat) (a : Nat), isRun m a bs NULL_LINK → bs.Nodup := by
  intro bs
  induction bs with
  | nil => intro a _; exact List.nodup_nil
  | cons b rest ih =>
    intro a h
    refine List.nodup_cons.mpr ⟨fun hmem => ?_, ih _ h.2.2⟩
    obtain ⟨p, q, hpq⟩ := List.append_of_mem hmem
    have h3 := h.2.2
    rw [hpq] at h3
    obtain ⟨c, _, hc2⟩ := (isRun_append m NULL_LINK p (b :: q) _).mp h3
    have hcb : c = b := hc2.1
    have hrun1 : isRun m b (b :: q) NULL_LINK := ⟨rfl, hc2.2.1, hc2.2.2⟩
    have hrun2 : isRun m b (b :: rest) NULL_LINK := ⟨rfl, h.2.1, h.2.2⟩
    have heq := isRun_det m _ _ b hrun1 hrun2
    have hlen : (b :: q).length = (b :: rest).length := by rw [heq]
    rw [hpq] at hlen
    simp at hlen
    omega

theorem exists_first_fit (p : Nat → Bool) :
    ∀ l : List Nat, (∃ x ∈ l, p x = true) →
      ∃ s1 b s2, l = s1 ++ b :: s2 ∧ (∀ x ∈ s1, p x = false) ∧ p b = true ∧
        ∀ l2, (l ++ l2).find? p = some b := by
  intro l
  induction l with
  | nil => rintro ⟨x, hx, _⟩; exact absurd hx (List.not_mem_nil _)
  | cons a rest ih =>
    rintro ⟨x, hx, hpx⟩
    by_cases ha : p a = true
    · refine ⟨[], a, rest, rfl, fun y hy => absurd hy (List.not_mem_nil _), ha, fun l2 => ?_⟩
      simp [List.find?, ha]
    · have haf : p a = false := by simpa using ha
      have hxr : x ∈ rest := by
        rcases List.mem_cons.mp hx with h | h
        · rw [h] at hpx; exact absurd hpx ha
        · exact h
      obtain ⟨s1, b, s2, h1, h2, h3, h4⟩ := ih ⟨x, hxr, hpx⟩
      refine ⟨a :: s1, b, s2, by rw [h1]; rfl, ?_, h3, fun l2 => ?_⟩
      · intro y hy
        rcases List.mem_cons.mp hy with h | h
        · rw [h]; exact haf
        · exact h2 y h
      · simp [List.find?, haf, h4 l2]

theorem find_none_append (p : Nat → Bool) :
    ∀ l l2 : List Nat, (∀ x ∈ l, p x = false) → (l ++ l2).find? p = l2.find? p := by
  intro l
  induction l with
  | nil => intro l2 _; rfl
  | cons a rest ih =>
    intro l2 h
    have ha : p a = false := h a (List.mem_cons_self _ _)
    simp [List.find?, ha, ih l2 fun x hx => h x (List.mem_cons_of_mem _ hx)]

/-- One pass of the loop of `FindFreeBlock` at a block that fits. -/
theorem FindFreeBlock.loop_hit (size start f : Nat) (st : State)
    (hn : st.rover ≠ NULL_LINK) (hfit : fits st.memory size st.rover = true) :
    FindFreeBlock.loop size start (f + 1) st = .ret (some st.rover) st := by
  have h : getIsFree st.memory st.rover ≠ 0 ∧ getSize st.memory st.rover ≥ size := by
    simpa [fits] using hfit
  unfold FindFreeBlock.loop GetBlock
  rw [if_neg hn]
  simp only
  rw [if_pos h]

/-- One pass of the loop of `FindFreeBlock` at a block that does not fit and
has a `next` block other than the start. -/
theorem FindFreeBlock.loop_next (size start f : Nat) (st : State)
    (hn : st.rover ≠ NULL_LINK) (hfit : fits st.memory size st.rover = false)
    (h1 : getNext st.memory st.rover ≠ start) (h2 : getNext st.memory st.rover ≠ NULL_LINK) :
    FindFreeBlock.loop size start (f + 1) st
      = FindFreeBlock.loop size start f { st with rover := getNext st.memory st.rover } := by
  have h : ¬ (getIsFree st.memory st.rover ≠ 0 ∧ getSize st.memory st.rover ≥ size) := by
    simpa [fits] using hfit
  conv_lhs => unfold FindFreeBlock.loop GetBlock
  rw [if_neg hn]
  simp only
  rw [if_neg h, if_neg h1, if_neg h2]

/-- One pass of the loop of `FindFreeBlock` at a tail block that does not fit. -/
theorem FindFreeBlock.loop_tail (size start f : Nat) (st : State)
    (hn : st.rover ≠ NULL_LINK) (hfit : fits st.memory size st.rover = false)
    (h1 : start ≠ NULL_LINK) (h2 : getNext st.memory st.rover = NULL_LINK) :
    FindFreeBlock.loop size start (f + 1) st
      = FindFreeBlock.loop size start f { st with rover := 0 } := by
  have h : ¬ (getIsFree st.memory st.rover ≠ 0 ∧ getSize st.memory st.rover ≥ size) := by
    simpa [fits] using hfit
  have h3 : getNext st.memory st.rover ≠ start := by rw [h2]; exact h1.symm
  conv_lhs => unfold FindFreeBlock.loop GetBlock
  rw [if_neg hn]
  simp only
  rw [if_neg h, if_neg h3, if_pos h2]

/-- The walk of `FindFreeBlock` along blocks that do not fit, up to the first
one that fits: it returns that block with `rover` on it. -/
theorem FindFreeBlock.loop_walk (size start b e : Nat) :
    ∀ (s1 : List Nat) (st : State) (fuel : Nat),
      isRun st.memory st.rover (s1 ++ [b]) e →
      (∀ x ∈ s1, fits st.memory size x = false) → fits st.memory size b = true →
      (∀ x ∈ (s1 ++ [b]).tail, x ≠ start) → s1.length < fuel →
      FindFreeBlock.loop size start fuel st = .ret (some b) { st with rover := b } := by
  intro s1
  induction s1 with
  | nil =>
    intro st fuel hrun _ hb _ hfuel
    obtain ⟨f, rfl⟩ : ∃ f, fuel = f + 1 := ⟨fuel - 1, by simp at hfuel; omega⟩
    have hr : st.rover = b := hrun.1
    have hbn : b ≠ NULL_LINK := hrun.2.1
    rw [FindFreeBlock.loop_hit size start f st (by rw [hr]; exact hbn) (by rw [hr]; exact hb), hr]
    cases st
    simp only at hr
    subst hr
    rfl
  | cons x rest ih =>
    intro st fuel hrun hs1 hb htail hfuel
    obtain ⟨f, rfl⟩ : ∃ f, fuel = f + 1 := ⟨fuel - 1, by simp at hfuel; omega⟩
    have hr : st.rover = x := hrun.1
    have hxn : x ≠ NULL_LINK := hrun.2.1
    have hrest : isRun st.memory (getNext st.memory x) (rest ++ [b]) e := hrun.2.2
    -- the block after `x` is the head of the rest of the run
    obtain ⟨y, ys, hys⟩ : ∃ y ys, rest ++ [b] = y :: ys := by
      cases rest with
      | nil => exact ⟨b, [], rfl⟩
      | cons y ys => exact ⟨y, ys ++ [b], rfl⟩
    have hny : getNext st.memory x = y := by
      rw [hys] at hrest; exact hrest.1
    have hyn : y ≠ NULL_LINK := by
      rw [hys] at hrest; exact hrest.2.1
    have hys2 : y ≠ start := by
      apply htail
      show y ∈ (rest ++ [b])
      rw [hys]; exact List.mem_cons_self _ _
    rw [FindFreeBlock.loop_next size start f st (by rw [hr]; exact hxn)
      (by rw [hr]; exact hs1 x (List.mem_cons_self _ _)) (by rw [hr, hny]; exact hys2)
      (by rw [hr, hny]; exact hyn), hr]
    exact ih { st with rover := getNext st.memory x } f hrest
      (fun z hz => hs1 z (List.mem_cons_of_mem _ hz)) hb
      (fun z hz => htail z (by
        show z ∈ (rest ++ [b])
        exact List.mem_of_mem_tail hz))
      (by simp only [List.length_cons] at hfuel; omega)

/-- The walk of `FindFreeBlock` along blocks that do not fit, to the tail of the
list: it goes on at offset 0. -/
theorem FindFreeBlock.loop_wrap (size start : Nat) (hstart : start ≠ NULL_LINK) :
    ∀ (seg : List Nat) (st : State) (f : Nat), seg ≠ [] →
      isRun st.memory st.rover seg NULL_LINK →
      (∀ x ∈ seg, fits st.memory size x = false) →
      (∀ x ∈ seg.tail, x ≠ start) →
      FindFreeBlock.loop size start (seg.length + f) st
        = FindFreeBlock.loop size start f { st with rover := 0 } := by
  intro seg
  induction seg with
  | nil => intro st f h; exact absurd rfl h
  | cons x rest ih =>
    intro st f _ hrun hunfit htail
    have hr : st.rover = x := hrun.1
    have hxn : x ≠ NULL_LINK := hrun.2.1
    have hx : fits st.memory size st.rover = false := by
      rw [hr]; exact hunfit x (List.mem_cons_self _ _)
    have hlen : (x :: rest).length + f = (rest.length + f) + 1 := by
      simp only [List.length_cons]; omega
    rw [hlen]
    cases rest with
    | nil =>
      have hnx : getNext st.memory x = NULL_LINK := hrun.2.2
      rw [FindFreeBlock.loop_tail size start _ st (by rw [hr]; exact hxn) hx hstart
        (by rw [hr]; exact hnx)]
      rw [List.length_nil, Nat.zero_add]
    | cons y ys =>
      have hny : getNext st.memory x = y := hrun.2.2.1
      have hyn : y ≠ NULL_LINK := hrun.2.2.2.1
      have hys : y ≠ start := htail y (List.mem_cons_self _ _)
      rw [FindFreeBlock.loop_next size start _ st (by rw [hr]; exact hxn) hx
        (by rw [hr, hny]; exact hys) (by rw [hr, hny]; exact hyn), hr]
      exact ih { st with rover := getNext st.memory x } f (List.cons_ne_nil _ _) hrun.2.2
        (fun z hz => hunfit z (List.mem_cons_of_mem _ hz))
        (fun z hz => htail z (List.mem_cons_of_mem _ hz))

/-- C16. Let the block list `bs` be a finite chain from offset 0 with `rover`
on it, `bs = pre ++ rover :: post`, and let some block of the list be free
with payload at least `size`.  Then `FindFreeBlock(size)` returns, for every
loop bound of at least the length of the list, the first block that fits in
the cyclic order `rover :: post ++ pre` (from `rover` along the `next` links to
the tail, then on from offset 0); on return `rover` is the offset of that
block and nothing else of the state, no byte of `memory` in particular, has
changed. -/
theorem find_free_next_fit (st : State) (size fuel : Nat) (bs pre post : List Nat)
    (hlist : blockList st.memory (bs.length + 1) 0 = bs)
    (hrover : bs = pre ++ st.rover :: post)
    (hex : ∃ b ∈ bs, fits st.memory size b = true)
    (hfuel : bs.length ≤ fuel) :
    ∃ b, (st.rover :: post ++ pre).find? (fits st.memory size) = some b ∧
      FindFreeBlock fuel st size = .ret (some b) { st with rover := b } := by
  have h0 : (0 : Nat) ≠ NULL_LINK := by decide
  have hrun := isRun_of_blockList st.memory bs.length 0 bs h0 hlist (le_refl _)
  have hnd := isRun_nodup st.memory bs 0 hrun
  rw [hrover] at hrun hnd hex
  have hlen : bs.length = pre.length + (post.length + 1) := by
    rw [hrover]; simp
  obtain ⟨c, hpre, hseg⟩ := (isRun_append st.memory NULL_LINK pre (st.rover :: post) 0).mp hrun
  have hc : c = st.rover := hseg.1
  rw [hc] at hseg hpre
  have hrn : st.rover ≠ NULL_LINK := hseg.2.1
  have hnotpre : ∀ x ∈ pre, x ≠ st.rover := by
    intro x hx heq
    have := (List.nodup_append.mp hnd).2.2
    exact this hx (by rw [heq]; exact List.mem_cons_self _ _)
  have hnotpost : ∀ x ∈ post, x ≠ st.rover := by
    intro x hx heq
    have h1 := (List.nodup_append.mp hnd).2.1
    have h2 := (List.nodup_cons.mp h1).1
    exact h2 (by rw [← heq]; exact hx)
  -- the elements after the first of a prefix `s1 ++ [b]` of `l` are elements of `l.tail`
  have htl : ∀ (l s1 s2 : List Nat) (b x : Nat), l = s1 ++ b :: s2 →
      x ∈ (s1 ++ [b]).tail → x ∈ l.tail := by
    intro l s1 s2 b x hl hx
    subst hl
    cases s1 with
    | nil => exact absurd hx (List.not_mem_nil _)
    | cons y ys =>
      have hx' : x ∈ ys ++ [b] := hx
      show x ∈ ys ++ b :: s2
      rcases List.mem_append.mp hx' with h | h
      · exact List.mem_append_left _ h
      · rw [List.mem_singleton] at h
        rw [h]; exact List.mem_append_right _ (List.mem_cons_self _ _)
  unfold FindFreeBlock
  by_cases hA : ∃ x ∈ st.rover :: post, fits st.memory size x = true
  · -- a block from `rover` to the tail fits
    obtain ⟨s1, b, s2, hdec, hun, hb, hfind⟩ := exists_first_fit _ _ hA
    refine ⟨b, hfind pre, ?_⟩
    have hseg2 : isRun st.memory st.rover ((s1 ++ [b]) ++ s2) NULL_LINK := by
      rw [List.append_assoc]
      show isRun st.memory st.rover (s1 ++ b :: s2) NULL_LINK
      rw [← hdec]; exact hseg
    obtain ⟨e, he, _⟩ := (isRun_append st.memory NULL_LINK (s1 ++ [b]) s2 _).mp hseg2
    have hl1 : s1.length < fuel := by
      have : (st.rover :: post).length = (s1 ++ b :: s2).length := by rw [hdec]
      simp at this
      omega
    exact FindFreeBlock.loop_walk size st.rover b e s1 st fuel he hun hb
      (fun x hx => hnotpost x (htl _ s1 s2 b x hdec hx)) hl1
  · -- no block from `rover` to the tail fits: the walk wraps to offset 0
    have hun : ∀ x ∈ st.rover :: post, fits st.memory size x = false := by
      intro x hx
      by_contra hc
      exact hA ⟨x, hx, by simpa using hc⟩
    have hB : ∃ x ∈ pre, fits st.memory size x = true := by
      obtain ⟨x, hx, hfx⟩ := hex
      rcases List.mem_append.mp hx with h | h
      · exact ⟨x, h, hfx⟩
      · rw [hun x h] at hfx; exact absurd hfx (by simp)
    obtain ⟨s1, b, s2, hdec, hun1, hb, hfind⟩ := exists_first_fit _ _ hB
    refine ⟨b, ?_, ?_⟩
    · have := find_none_append (fits st.memory size) (st.rover :: post) pre hun
      rw [this]
      have h2 := hfind []
      rw [List.append_nil] at h2
      exact h2
    · have hpre2 : isRun st.memory 0 ((s1 ++ [b]) ++ s2) st.rover := by
        rw [List.append_assoc]
        show isRun st.memory 0 (s1 ++ b :: s2) st.rover
        rw [← hdec]; exact hpre
      obtain ⟨e, he, _⟩ := (isRun_append st.memory st.rover (s1 ++ [b]) s2 _).mp hpre2
      have hpl : pre.length = s1.length + (s2.length + 1) := by
        rw [hdec]; simp
      obtain ⟨f, hf⟩ : ∃ f, fuel = (st.rover :: post).length + f :=
        ⟨fuel - (post.length + 1), by simp only [List.length_cons]; omega⟩
      rw [hf, FindFreeBlock.loop_wrap size st.rover hrn (st.rover :: post) st f
        (List.cons_ne_nil _ _) hseg hun (fun x hx => hnotpost x hx)]
      have hwalk := FindFreeBlock.loop_walk size st.rover b e s1 { st with rover := 0 } f he
        hun1 hb
        (fun x hx => hnotpre x (List.mem_of_mem_tail (htl _ s1 s2 b x hdec hx)))
        (by simp only [List.length_cons] at hf; omega)
      exact hwalk

/-- Witness for C16: the arena of `main.c` after two `MM_malloc(100)` and the
release of the first.  The list is `[0, 116, 232]` with `rover = 116`; a search
for 50 bytes passes the used block 116 and the free block 232 of payload 8,
wraps to offset 0 and returns the free block there, of payload 100. -/
theorem find_free_next_fit_witness :
    blockList (stateAfter (stalePrevCalls.take 3)).memory 4 0 = [0, 116, 232] ∧
    (stateAfter (stalePrevCalls.take 3)).rover = 116 ∧
    fits (stateAfter (stalePrevCalls.take 3)).memory 50 116 = false ∧
    fits (stateAfter (stalePrevCalls.take 3)).memory 50 232 = false ∧
    fits (stateAfter (stalePrevCalls.take 3)).memory 50 0 = true ∧
    FindFreeBlock 3 (stateAfter (stalePrevCalls.take 3)) 50
      = .ret (some 0) { stateAfter (stalePrevCalls.take 3) with rover := 0 } := by
  obtain ⟨b, h1, h2⟩ := find_free_next_fit (stateAfter (stalePrevCalls.take 3)) 50 3
    [0, 116, 232] [0] [232] (by decide) (by decide) ⟨0, by decide, by decide⟩ (by decide)
  have h3 : ((stateAfter (stalePrevCalls.take 3)).rover :: [232] ++ [0]).find?
      (fits (stateAfter (stalePrevCalls.take 3)).memory 50) = some 0 := by decide
  have hb : b = 0 := Option.some.inj (h1.symm.trans h3)
  rw [hb] at h2
  exact ⟨by decide, by decide, by decide, by decide, by decide, h2⟩

/-! ## C17: the growth step -/

/-- A write to a field of the header at `b` changes bytes of `[b, b + 16)` only. -/
theorem set_outside (m : Mem) (b v x : Nat) (h : x < b ∨ b + 16 ≤ x) :
    setId m b v x = m x ∧ setIsFree m b v x = m x ∧ setSize m b v x = m x ∧
    setPrev m b v x = m x ∧ setNext m b v x = m x :=
  ⟨wr16_outside _ _ _ _ (by omega), wr8_outside _ _ _ _ (by omega),
    wr32_outside _ _ _ _ (by omega), wr32_outside _ _ _ _ (by omega),
    wr32_outside _ _ _ _ (by omega)⟩

/-- The walk to the tail ends at the last block of the list, in every memory
that has the `next` links of the list. -/
theorem lastBlock_of_blockList (m : Mem) :
    ∀ (n a : Nat) (bs : List Nat), blockList m (n + 1) a = bs → bs.length ≤ n →
      ∃ t, bs.getLast? = some t ∧ t ∈ bs ∧
        ∀ (m' : Mem) (k : Nat), (∀ b ∈ bs, getNext m' b = getNext m b) → bs.length ≤ k →
          lastBlock m' k a = some t := by
  intro n
  induction n with
  | zero =>
    intro a bs h hlen
    rw [← h] at hlen
    simp [blockList] at hlen
  | succ n ih =>
    intro a bs h hlen
    rw [blockList] at h
    by_cases hnx : getNext m a = NULL_LINK
    · rw [if_pos hnx] at h
      subst h
      refine ⟨a, rfl, List.mem_singleton.mpr rfl, fun m' k hm hk => ?_⟩
      obtain ⟨k', rfl⟩ : ∃ k', k = k' + 1 := ⟨k - 1, by simp at hk; omega⟩
      have := hm a (List.mem_singleton.mpr rfl)
      rw [lastBlock, this, hnx]
      simp
    · rw [if_neg hnx] at h
      subst h
      have hlen' : (blockList m (n + 1) (getNext m a)).length ≤ n := by
        simp only [List.length_cons] at hlen; omega
      obtain ⟨t, ht, htm, hwalk⟩ := ih (getNext m a) _ rfl hlen'
      have hne : blockList m (n + 1) (getNext m a) ≠ [] := by
        rw [blockList]; simp
      refine ⟨t, ?_, List.mem_cons_of_mem _ htm, fun m' k hm hk => ?_⟩
      · rw [List.getLast?_cons, ht]; rfl
      · obtain ⟨k', rfl⟩ : ∃ k', k = k' + 1 := ⟨k - 1, by simp at hk; omega⟩
        have ha := hm a (List.mem_cons_self _ _)
        rw [lastBlock, ha, if_pos hnx]
        exact hwalk m' k' (fun b hb => hm b (List.mem_cons_of_mem _ hb))
          (by simp only [List.length_cons] at hk; omega)

/-- The loop of `GetFreeBlock` is `growStep` followed by the loop test. -/
theorem GetFreeBlock.grow_step (env : Env) (size inner fuel : Nat) (st : State) :
    GetFreeBlock.grow env size inner (fuel + 1) st =
      match growStep env inner st with
      | .ret false st1 => .ret none st1
      | .ret true st1 =>
        (match FindFreeBlock inner st1 size with
          | .ret none st2 => GetFreeBlock.grow env size inner fuel st2
          | r => r)
      | .fault => .fault
      | .timeout => .timeout := by
  conv_lhs => rw [GetFreeBlock.grow]
  unfold growStep
  simp only
  split
  · rfl
  · split
    · rfl
    · split
      · rfl
      · rfl

theorem growStep_grown (env : Env) (junk : Mem) (inner : Nat) (st : State) (bs : List Nat)
    (hnowrap : st.allocated + st.realloc_increment ≤ U32_MAX)
    (hinc : sizeofBlock ≤ st.realloc_increment)
    (hre : env.realloc (st.allocated + st.realloc_increment) = some junk)
    (hlist : blockList st.memory (bs.length + 1) 0 = bs)
    (hin : ∀ b ∈ bs, b + sizeofBlock ≤ st.allocated)
    (hfuel : bs.length ≤ inner) :
    ∃ t, bs.getLast? = some t ∧ t + 16 ≤ st.allocated ∧
      growStep env inner st = .ret true
        { st with
          allocated := st.allocated + st.realloc_increment
          memory := (grownMem st.memory junk st.allocated st.realloc_increment t) } := by
  have h16 : sizeofBlock = 16 := rfl
  have hU : U32_MAX = 4294967295 := rfl
  rw [hU] at hnowrap
  rw [h16] at hinc
  obtain ⟨t, ht, htm, hwalk⟩ := lastBlock_of_blockList st.memory bs.length 0 bs hlist (le_refl _)
  have htin : t + 16 ≤ st.allocated := hin t htm
  refine ⟨t, ht, htin, ?_⟩
  have hu : u32 (st.allocated + st.realloc_increment) = st.allocated + st.realloc_increment :=
    u32_of_lt _ (by omega)
  have hmin : min st.allocated (st.allocated + st.realloc_increment) = st.allocated :=
    Nat.min_eq_left (by omega)
  have hgb : GetBlock st.allocated = some st.allocated := by
    unfold GetBlock NULL_LINK; rw [if_neg (by omega)]
  have hsz : u32 (usize (sub32 (st.allocated + st.realloc_increment) st.allocated
      + 2 ^ 64 - sizeofBlock)) = st.realloc_increment - 16 := by
    simp only [u32, usize, sub32, h16]; omega
  have hgo1 : GetOffset st.allocated = st.allocated := u32_of_lt _ (by omega)
  have hgo2 : GetOffset t = t := u32_of_lt _ (by omega)
  have hlast : lastBlock (setSize (setIsFree (setId
      (fun x => if x < st.allocated then st.memory x else junk x) st.allocated MM_ID)
      st.allocated 1) st.allocated (st.realloc_increment - 16)) inner 0 = some t := by
    apply hwalk _ _ _ hfuel
    intro b hb
    have hbin : b + 16 ≤ st.allocated := hin b hb
    have hc := (header_congr (fun x => if x < st.allocated then st.memory x else junk x)
      st.memory b (fun x _ hx => if_pos (by omega))).2.2.2.2
    simp (disch := omega) [hc]
  unfold growStep
  simp only [hu, hre, hmin, hgb, hsz, hlast, hgo1, hgo2]
  rfl

/-- The new header and the tail link in the memory after a growth step. -/
theorem grownMem_fields (m junk : Mem) (c inc t : Nat)
    (hc : c < 4294967295) (hi : 16 ≤ inc) (hinc : inc < 4294967296) (ht : t + 16 ≤ c) :
    getIsFree (grownMem m junk c inc t) c = 1 ∧ getId (grownMem m junk c inc t) c = MM_ID ∧
    getSize (grownMem m junk c inc t) c = inc - 16 ∧
    getPrev (grownMem m junk c inc t) c = t ∧
    getNext (grownMem m junk c inc t) c = NULL_LINK ∧
    getNext (grownMem m junk c inc t) t = c := by
  have hMM : MM_ID % 65536 = MM_ID := by decide
  have hNm : NULL_LINK % 4294967296 = NULL_LINK := by decide
  have h1 : (inc - 16) % 4294967296 = inc - 16 := Nat.mod_eq_of_lt (by omega)
  have h2 : t % 4294967296 = t := Nat.mod_eq_of_lt (by omega)
  have h3 : c % 4294967296 = c := Nat.mod_eq_of_lt (by omega)
  unfold grownMem
  simp (disch := omega) [hMM, hNm, h1, h2, h3]

/-- The bytes below `c` that are not the `next` field of the tail are the old bytes. -/
theorem grownMem_frame (m junk : Mem) (c inc t x : Nat) (hx : x < c)
    (hout : x < t + 12 ∨ t + 16 ≤ x) : grownMem m junk c inc t x = m x := by
  unfold grownMem
  rw [(set_outside _ c _ x (by omega)).2.2.2.2, (set_outside _ c _ x (by omega)).2.2.2.1]
  unfold setNext
  rw [wr32_outside _ _ _ _ (by omega)]
  rw [(set_outside _ c _ x (by omega)).2.2.1, (set_outside _ c _ x (by omega)).2.1,
    (set_outside _ c _ x (by omega)).1]
  exact if_pos hx


/-- A search that fails ends with `rover` back at its start and has changed nothing else. -/
theorem FindFreeBlock.loop_failed (size start : Nat) :
    ∀ (fuel : Nat) (st st' : State),
      FindFreeBlock.loop size start fuel st = .ret none st' →
      st' = { st with rover := start } := by
  intro fuel
  induction fuel with
  | zero => intro st st' h; simp [FindFreeBlock.loop] at h
  | succ n ih =>
    intro st st' h
    unfold FindFreeBlock.loop at h
    split at h
    · simp at h
    · split at h
      · simp at h
      · simp only at h
        split at h
        · rename_i heq
          simp only [Res.ret.injEq, true_and] at h
          rw [← h, heq]
        · split at h
          · exact (ih _ _ h).trans rfl
          · exact (ih _ _ h).trans rfl

/-- A failed `FindFreeBlock` leaves the state as it found it. -/
theorem FindFreeBlock_failed (fuel : Nat) (st st' : State) (size : Nat)
    (h : FindFreeBlock fuel st size = .ret none st') : st' = st :=
  FindFreeBlock.loop_failed size st.rover fuel st st' h

/-- A failed `FindFreeBlock`, read off the returned value alone. -/
theorem FindFreeBlock_failed_val (fuel : Nat) (st : State) (size : Nat)
    (h : (FindFreeBlock fuel st size).val? = some none) :
    FindFreeBlock fuel st size = .ret none st := by
  cases hr : FindFreeBlock fuel st size with
  | ret v st' =>
    rw [hr] at h
    simp only [Res.val?, Option.some.injEq] at h
    subst h
    rw [FindFreeBlock_failed fuel st st' size hr]
  | fault => rw [hr] at h; simp [Res.val?] at h
  | timeout => rw [hr] at h; simp [Res.val?] at h

/-- The growth step where the sum fits.  Let the block list be a finite chain
from offset 0 whose headers lie inside the arena, let `realloc_increment` be at
least one header and let `C + realloc_increment` fit `u32` (`C = allocated`).
When the search fails and
`realloc` succeeds, the first pass of the growth loop raises `allocated` from
`C` to `C + realloc_increment`, writes at offset `C` a header that is free,
tagged `0xBEEF`, with payload `realloc_increment - 16`, `prev` = the former
tail `t` and `next = NULL_LINK`, sets the `next` of `t` to `C`, and leaves every
other byte below `C` (so every other field of every old header), `rover` and
`realloc_increment` as they were; `GetFreeBlock` then goes on with the search
in that state. -/
theorem growth_step (env : Env) (junk : Mem) (size fuel : Nat) (st : State)
    (bs : List Nat)
    (hsearch : (FindFreeBlock (fuel + 1) st size).val? = some none)
    (hnowrap : st.allocated + st.realloc_increment ≤ U32_MAX)
    (hinc : sizeofBlock ≤ st.realloc_increment)
    (hre : env.realloc (st.allocated + st.realloc_increment) = some junk)
    (hlist : blockList st.memory (bs.length + 1) 0 = bs)
    (hin : ∀ b ∈ bs, b + sizeofBlock ≤ st.allocated)
    (hfuel : bs.length ≤ fuel + 1) :
    ∃ t st', bs.getLast? = some t ∧ growStep env (fuel + 1) st = .ret true st' ∧
      GetFreeBlock env (fuel + 1) st size =
        (match FindFreeBlock (fuel + 1) st' size with
          | .ret none st2 => GetFreeBlock.grow env size (fuel + 1) fuel st2
          | r => r) ∧
      st'.allocated = st.allocated + st.realloc_increment ∧
      st'.realloc_increment = st.realloc_increment ∧ st'.rover = st.rover ∧
      getIsFree st'.memory st.allocated = 1 ∧ getId st'.memory st.allocated = MM_ID ∧
      getSize st'.memory st.allocated = st.realloc_increment - 16 ∧
      getPrev st'.memory st.allocated = t ∧ getNext st'.memory st.allocated = NULL_LINK ∧
      getNext st'.memory t = st.allocated ∧
      ∀ x, x < st.allocated → (x < t + 12 ∨ t + 16 ≤ x) → st'.memory x = st.memory x := by
  obtain ⟨t, ht, htin, hstep⟩ :=
    growStep_grown env junk (fuel + 1) st bs hnowrap hinc hre hlist hin hfuel
  have hU : U32_MAX = 4294967295 := rfl
  have h16 : sizeofBlock = 16 := rfl
  rw [hU] at hnowrap
  rw [h16] at hinc
  obtain ⟨f1, f2, f3, f4, f5, f6⟩ := grownMem_fields st.memory junk st.allocated
    st.realloc_increment t (by omega) hinc (by omega) htin
  refine ⟨t, _, ht, hstep, ?_, rfl, rfl, rfl, f1, f2, f3, f4, f5, f6,
    fun x hx hout => grownMem_frame st.memory junk st.allocated st.realloc_increment t x hx hout⟩
  unfold GetFreeBlock
  rw [FindFreeBlock_failed_val (fuel + 1) st size hsearch]
  simp only
  rw [GetFreeBlock.grow_step, hstep]

/-- An instance of `growth_step`: the arena of `main.c` after two `MM_malloc(100)`, a request
for 100 bytes more and a `realloc` that succeeds: `allocated` goes from 256 to
512 and the new block at 256 is linked behind the tail 232. -/
theorem growth_step_witness :
    ∃ t st', [0, 116, 232].getLast? = some t ∧
      growStep Env.grow 8 (stateAfter (growCalls.take 2)) = .ret true st' ∧
      st'.allocated = (stateAfter (growCalls.take 2)).allocated
        + (stateAfter (growCalls.take 2)).realloc_increment ∧
      getSize st'.memory (stateAfter (growCalls.take 2)).allocated
        = (stateAfter (growCalls.take 2)).realloc_increment - 16 ∧
      getPrev st'.memory (stateAfter (growCalls.take 2)).allocated = t ∧
      getNext st'.memory t = (stateAfter (growCalls.take 2)).allocated := by
  obtain ⟨t, st', h1, h2, -, h4, -, -, -, -, h9, h10, -, h12, -⟩ :=
    growth_step Env.grow (fun x => x % 251 + 1) 100 7 (stateAfter (growCalls.take 2))
      [0, 116, 232] (by decide) (by decide) (by decide) rfl (by decide) (by decide) (by decide)
  exact ⟨t, st', h1, h2, h4, h9, h10, h12⟩

/-- C17 (broken by the code). After `MM_Init(3 * 2^30)` and the first two calls
of `wrapCalls3` the arena is well formed: `allocated = realloc_increment =
3 * 2^30` and the blocks 0 and 26, both used, tile it.  The search for 1 byte
fails and `realloc` succeeds, yet the growth step does not raise `allocated` to
`C + realloc_increment`: the sum wraps in `u32`, `allocated` becomes `2^31`,
less than before, and the new header at offset `C` lies past the end of the
buffer `realloc` was asked for. -/
theorem growth_step_wraps :
    (MM_Init Env.grow State.zero (3 * 2 ^ 30)).1 = true ∧
    (filled3G.allocated, filled3G.realloc_increment) = (3 * 2 ^ 30, 3 * 2 ^ 30) ∧
    (blockList filled3G.memory 8 0, tiles filled3G (blockList filled3G.memory 8 0))
      = ([0, 26], true) ∧
    (FindFreeBlock 8 filled3G 1).val? = some none ∧
    (Env.grow.realloc (u32 (filled3G.allocated + filled3G.realloc_increment))).isSome = true ∧
    (growStep Env.grow 8 (FindFreeBlock 8 filled3G 1).stateD).val? = some true ∧
    ((growStep Env.grow 8 (FindFreeBlock 8 filled3G 1).stateD).st?.map fun st =>
        (st.allocated, decide (st.allocated = filled3G.allocated + filled3G.realloc_increment),
          decide (st.allocated < filled3G.allocated), getId st.memory filled3G.allocated,
          getPrev st.memory filled3G.allocated, getNext st.memory 26))
      = some (2 ^ 31, false, true, MM_ID, 26, 3 * 2 ^ 30) := by
  decide

/-! ## C18: the split rule -/

/-- C18. For every block at offset `o` with payload `n` and next link `x` that
ends inside the `u32` range (`o + 16 + n ≤ U32_MAX`), and every request `r`
with `r < n`: `TrySplitBlock` changes nothing when `n - r ≤ 16`; when
`n - r > 16` it writes at `o + r + 16` a header that is free, tagged `0xBEEF`,
with payload `n - r - 16`, `prev = o` and `next = x`, and sets the payload of
the block to `r` and its `next` to `o + r + 16`, so that
`(16 + r) + (16 + (n - r - 16)) = 16 + n`; tag, free flag and `prev` of the
block stay as they are. -/
theorem split_rule (m : Mem) (o r : Nat) (hr : r < getSize m o)
    (hin : o + sizeofBlock + getSize m o ≤ U32_MAX) :
    (getSize m o - r ≤ 16 → TrySplitBlock m o r = some m) ∧
    (16 < getSize m o - r → ∃ m', TrySplitBlock m o r = some m' ∧
      getIsFree m' (o + r + 16) = 1 ∧ getId m' (o + r + 16) = MM_ID ∧
      getSize m' (o + r + 16) = getSize m o - r - 16 ∧
      getPrev m' (o + r + 16) = o ∧ getNext m' (o + r + 16) = getNext m o ∧
      getSize m' o = r ∧ getNext m' o = o + r + 16 ∧
      (16 + r) + (16 + (getSize m o - r - 16)) = 16 + getSize m o ∧
      getId m' o = getId m o ∧ getIsFree m' o = getIsFree m o ∧
      getPrev m' o = getPrev m o) := by
  have h16 : sizeofBlock = 16 := rfl
  have hU : U32_MAX = 4294967295 := rfl
  rw [h16, hU] at hin
  have hsub : sub32 (getSize m o) r = getSize m o - r := by
    unfold sub32; omega
  refine ⟨fun hle => TrySplitBlock_keep m o r (by rw [hsub, h16]; exact hle), fun hgt => ?_⟩
  have hoff : u32 (GetOffset o + u32 (usize (r + sizeofBlock))) = o + r + 16 := by
    simp only [GetOffset, u32, usize, h16]
    omega
  have hne : u32 (GetOffset o + u32 (usize (r + sizeofBlock))) ≠ NULL_LINK := by
    rw [hoff]; unfold NULL_LINK; omega
  have hsp := TrySplitBlock_split m o r (by rw [hsub, h16]; exact hgt) hne
  rw [hoff] at hsp
  obtain ⟨s1, s2, s3, s4, s5⟩ := splitMem_split m o r (o + r + 16) (by omega)
  obtain ⟨b1, b2, b3, b4, b5⟩ := splitMem_block m o r (o + r + 16) (by omega)
  refine ⟨_, hsp, s2, s1, ?_, ?_, s5, ?_, ?_, by omega, b1, b2, b4⟩
  · rw [s3, hsub, h16]; exact u32_of_lt _ (by omega)
  · rw [s4]; exact u32_of_lt _ (by omega)
  · rw [b3]; exact u32_of_lt _ (by omega)
  · rw [b5]; exact u32_of_lt _ (by omega)

/-- Witness for C18: block 0 of the arena of `main.c` (payload 240) is split
for a request of 4 bytes and kept whole for a request of 230 bytes. -/
theorem split_rule_witness :
    TrySplitBlock arena256.memory 0 230 = some arena256.memory ∧
    ∃ m', TrySplitBlock arena256.memory 0 4 = some m' ∧
      getIsFree m' (0 + 4 + 16) = 1 ∧ getId m' (0 + 4 + 16) = MM_ID ∧
      getSize m' (0 + 4 + 16) = getSize arena256.memory 0 - 4 - 16 ∧
      getPrev m' (0 + 4 + 16) = 0 ∧ getNext m' (0 + 4 + 16) = getNext arena256.memory 0 ∧
      getSize m' 0 = 4 ∧ getNext m' 0 = 0 + 4 + 16 ∧
      (16 + 4) + (16 + (getSize arena256.memory 0 - 4 - 16)) = 16 + getSize arena256.memory 0 ∧
      getId m' 0 = getId arena256.memory 0 ∧ getIsFree m' 0 = getIsFree arena256.memory 0 ∧
      getPrev m' 0 = getPrev arena256.memory 0 :=
  ⟨(split_rule arena256.memory 0 230 (by decide) (by decide)).1 (by decide),
    (split_rule arena256.memory 0 4 (by decide) (by decide)).2 (by decide)⟩

/-! ## C19: merge accounting -/

/-- C19. Let `P = block->prev` and `N = block->next`, where a neighbour that
exists lies at least one header away on its side (`P + 16 ≤ block`,
`block + 16 ≤ N`) and the summed payloads fit `u32`.  A neighbour counts as
free when its link is not `NULL_LINK` and its free flag is set.  Both free:
the payload of `P` becomes `size(P) + size(block) + size(N) + 32` and its
`next` becomes the `next` of `N`.  Only `P` free: the payload of `P` becomes
`size(P) + size(block) + 16` and its `next` the `next` of `block`.  Only `N`
free: the payload of `block` becomes `size(block) + size(N) + 16` and its
`next` the `next` of `N`.  Neither free (or absent): memory is unchanged. -/
theorem merge_accounting (m : Mem) (block : Nat) :
    ((getPrev m block ≠ NULL_LINK ∧ getIsFree m (getPrev m block) ≠ 0) →
      (getNext m block ≠ NULL_LINK ∧ getIsFree m (getNext m block) ≠ 0) →
      getPrev m block + 16 ≤ block → block + 16 ≤ getNext m block →
      getSize m (getPrev m block) + getSize m block + getSize m (getNext m block) + 32
        < 2 ^ 32 →
      getSize (TryMergeBlock m block) (getPrev m block)
        = getSize m (getPrev m block) + getSize m block + getSize m (getNext m block) + 32 ∧
      getNext (TryMergeBlock m block) (getPrev m block) = getNext m (getNext m block)) ∧
    ((getPrev m block ≠ NULL_LINK ∧ getIsFree m (getPrev m block) ≠ 0) →
      ¬ (getNext m block ≠ NULL_LINK ∧ getIsFree m (getNext m block) ≠ 0) →
      getPrev m block + 16 ≤ block →
      getSize m (getPrev m block) + getSize m block + 16 < 2 ^ 32 →
      getSize (TryMergeBlock m block) (getPrev m block)
        = getSize m (getPrev m block) + getSize m block + 16 ∧
      getNext (TryMergeBlock m block) (getPrev m block) = getNext m block) ∧
    (¬ (getPrev m block ≠ NULL_LINK ∧ getIsFree m (getPrev m block) ≠ 0) →
      (getNext m block ≠ NULL_LINK ∧ getIsFree m (getNext m block) ≠ 0) →
      block + 16 ≤ getNext m block →
      getSize m block + getSize m (getNext m block) + 16 < 2 ^ 32 →
      getSize (TryMergeBlock m block) block
        = getSize m block + getSize m (getNext m block) + 16 ∧
      getNext (TryMergeBlock m block) block = getNext m (getNext m block)) ∧
    (¬ (getPrev m block ≠ NULL_LINK ∧ getIsFree m (getPrev m block) ≠ 0) →
      ¬ (getNext m block ≠ NULL_LINK ∧ getIsFree m (getNext m block) ≠ 0) →
      TryMergeBlock m block = m) := by
  have h16 : sizeofBlock = 16 := rfl
  refine ⟨?_, ?_, ?_, ?_⟩
  · intro hP hN hPB hBN hsum
    have e : TryMergeBlock m block =
        setNext (setSize (setSize m (getPrev m block)
            (u32 (getSize m (getPrev m block) + usize (getSize m block + sizeofBlock))))
          (getPrev m block)
            (u32 (getSize (setSize m (getPrev m block)
                (u32 (getSize m (getPrev m block) + usize (getSize m block + sizeofBlock))))
                (getPrev m block)
              + usize (getSize (setSize m (getPrev m block)
                (u32 (getSize m (getPrev m block) + usize (getSize m block + sizeofBlock))))
                (getNext m block) + sizeofBlock))))
          (getPrev m block)
          (getNext (setSize (setSize m (getPrev m block)
            (u32 (getSize m (getPrev m block) + usize (getSize m block + sizeofBlock))))
          (getPrev m block)
            (u32 (getSize (setSize m (getPrev m block)
                (u32 (getSize m (getPrev m block) + usize (getSize m block + sizeofBlock))))
                (getPrev m block)
              + usize (getSize (setSize m (getPrev m block)
                (u32 (getSize m (getPrev m block) + usize (getSize m block + sizeofBlock))))
                (getNext m block) + sizeofBlock)))) (getNext m block)) := by
      unfold TryMergeBlock GetBlock
      simp [hP.1, hP.2, hN.1, hN.2]
    rw [e]
    have hu1 : usize (getSize m block + sizeofBlock) = getSize m block + 16 := by
      rw [h16]; exact usize_of_lt _ (by omega)
    have hv1 : u32 (getSize m (getPrev m block) + (getSize m block + 16))
        = getSize m (getPrev m block) + getSize m block + 16 := by
      rw [u32_of_lt _ (by omega)]; omega
    have hu2 : usize (getSize m (getNext m block) + sizeofBlock)
        = getSize m (getNext m block) + 16 := by
      rw [h16]; exact usize_of_lt _ (by omega)
    have hv2 : u32 (getSize m (getPrev m block) + getSize m block + 16
          + (getSize m (getNext m block) + 16))
        = getSize m (getPrev m block) + getSize m block + getSize m (getNext m block) + 32 := by
      rw [u32_of_lt _ (by omega)]; omega
    have hmod : (getSize m (getPrev m block) + getSize m block + 16) % 4294967296
        = getSize m (getPrev m block) + getSize m block + 16 := Nat.mod_eq_of_lt (by omega)
    have hmod2 : (getSize m (getPrev m block) + getSize m block + getSize m (getNext m block)
        + 32) % 4294967296
        = getSize m (getPrev m block) + getSize m block + getSize m (getNext m block) + 32 :=
      Nat.mod_eq_of_lt (by omega)
    simp (disch := omega) [hu1, hv1, hu2, hv2, hmod, hmod2]
  · intro hP hN hPB hsum
    have e : TryMergeBlock m block =
        setNext (setSize m (getPrev m block)
            (u32 (getSize m (getPrev m block) + usize (getSize m block + sizeofBlock))))
          (getPrev m block)
          (getNext (setSize m (getPrev m block)
            (u32 (getSize m (getPrev m block) + usize (getSize m block + sizeofBlock)))) block) := by
      unfold TryMergeBlock GetBlock
      by_cases hn : getNext m block = NULL_LINK
      · simp [hP.1, hP.2, hn]
      · have hz : getIsFree m (getNext m block) = 0 := by
          by_contra hc
          exact hN ⟨hn, hc⟩
        simp [hP.1, hP.2, hn, hz]
    rw [e]
    have hu1 : usize (getSize m block + sizeofBlock) = getSize m block + 16 := by
      rw [h16]; exact usize_of_lt _ (by omega)
    have hv1 : u32 (getSize m (getPrev m block) + (getSize m block + 16))
        = getSize m (getPrev m block) + getSize m block + 16 := by
      rw [u32_of_lt _ (by omega)]; omega
    have hmod : (getSize m (getPrev m block) + getSize m block + 16) % 4294967296
        = getSize m (getPrev m block) + getSize m block + 16 := Nat.mod_eq_of_lt (by omega)
    simp (disch := omega) [hu1, hv1, hmod]
  · intro hP hN hBN hsum
    have hp : getPrev m block = NULL_LINK ∨ getIsFree m (getPrev m block) = 0 := by
      by_cases hn : getPrev m block = NULL_LINK
      · exact Or.inl hn
      · right
        by_contra hc
        exact hP ⟨hn, hc⟩
    rw [TryMergeBlock_next m block hp hN.1 hN.2]
    have hu1 : usize (getSize m (getNext m block) + sizeofBlock)
        = getSize m (getNext m block) + 16 := by
      rw [h16]; exact usize_of_lt _ (by omega)
    have hv1 : u32 (getSize m block + (getSize m (getNext m block) + 16))
        = getSize m block + getSize m (getNext m block) + 16 := by
      rw [u32_of_lt _ (by omega)]; omega
    have hmod : (getSize m block + getSize m (getNext m block) + 16) % 4294967296
        = getSize m block + getSize m (getNext m block) + 16 := Nat.mod_eq_of_lt (by omega)
    simp (disch := omega) [hu1, hv1, hmod]
  · intro hP hN
    have hp : getPrev m block = NULL_LINK ∨ getIsFree m (getPrev m block) = 0 := by
      by_cases hn : getPrev m block = NULL_LINK
      · exact Or.inl hn
      · right
        by_contra hc
        exact hP ⟨hn, hc⟩
    have hn : getNext m block = NULL_LINK ∨ getIsFree m (getNext m block) = 0 := by
      by_cases hn : getNext m block = NULL_LINK
      · exact Or.inl hn
      · right
        by_contra hc
        exact hN ⟨hn, hc⟩
    exact TryMergeBlock_none m block hp hn

/-- Witness for C19, one scenario per case: both neighbours free (block 116
between the free blocks 0 and 142), only `prev` free (block 66 after the free
block 0 and before the used block 132), only `next` free (block 0 of the arena
after `MM_malloc(4)`), no neighbour (the one block of the arena after
`MM_malloc(240)`). -/
theorem merge_accounting_witness :
    (getSize (TryMergeBlock (justFreed (staleRoverCalls.take 3) 132) 116) 0 = 100 + 10 + 98 + 32 ∧
      getNext (TryMergeBlock (justFreed (staleRoverCalls.take 3) 132) 116) 0 = NULL_LINK) ∧
    (getSize (TryMergeBlock (justFreed (mergePrevCalls.take 4) 82) 66) 0 = 50 + 50 + 16 ∧
      getNext (TryMergeBlock (justFreed (mergePrevCalls.take 4) 82) 66) 0 = 132) ∧
    (getSize (TryMergeBlock (justFreed [.malloc 4] 16) 0) 0 = 4 + 220 + 16 ∧
      getNext (TryMergeBlock (justFreed [.malloc 4] 16) 0) 0 = NULL_LINK) ∧
    TryMergeBlock (justFreed [.malloc 240] 16) 0 = justFreed [.malloc 240] 16 := by
  have h1 := (merge_accounting (justFreed (staleRoverCalls.take 3) 132) 116).1
    (by decide) (by decide) (by decide) (by decide) (by decide)
  have h2 := (merge_accounting (justFreed (mergePrevCalls.take 4) 82) 66).2.1
    (by decide) (by decide) (by decide) (by decide)
  have h3 := (merge_accounting (justFreed [.malloc 4] 16) 0).2.2.1
    (by decide) (by decide) (by decide) (by decide)
  have h4 := (merge_accounting (justFreed [.malloc 240] 16) 0).2.2.2 (by decide) (by decide)
  have p1 : getPrev (justFreed (staleRoverCalls.take 3) 132) 116 = 0 := by decide
  have n1 : getNext (justFreed (staleRoverCalls.take 3) 132) 116 = 142 := by decide
  have p2 : getPrev (justFreed (mergePrevCalls.take 4) 82) 66 = 0 := by decide
  have n3 : getNext (justFreed [.malloc 4] 16) 0 = 20 := by decide
  rw [p1, n1] at h1
  rw [p2] at h2
  rw [n3] at h3
  refine ⟨⟨h1.1.trans (by decide), h1.2.trans (by decide)⟩,
    ⟨h2.1.trans (by decide), h2.2.trans (by decide)⟩,
    ⟨h3.1.trans (by decide), h3.2.trans (by decide)⟩, h4⟩

/-! ## C20: rover validity -/

/-- C20 (broken by the code). After `MM_Init(256)` and the first three calls of
`staleRoverCalls`, `rover = 116` is on the list `[0, 116, 142]`.  The fourth
call, `MM_free` of the live pointer 132, merges the three blocks into block 0
(payload 240): the list is `[0]`, and `rover` is still 116, the offset of the
header the merge absorbed. -/
theorem rover_left_on_absorbed_block :
    (run Env.noGrow 8 arena256 (staleRoverCalls.take 3)).val? = some [some 16, some 132] ∧
    ((run Env.noGrow 8 arena256 (staleRoverCalls.take 3)).st?.map fun st =>
        (st.rover, blockList st.memory 8 0, decide (st.rover ∈ blockList st.memory 8 0)))
      = some (116, [0, 116, 142], true) ∧
    ((run Env.noGrow 8 arena256 (staleRoverCalls.take 4)).st?.map fun st =>
        (st.rover, blockList st.memory 8 0, getSize st.memory 0,
          decide (st.rover ∈ blockList st.memory 8 0)))
      = some (116, [0], 240, false) := by
  decide

end MemoryManager
